import Mathlib

/-!
Verification of the OpenFL federated-learning coordinator (aggregator,
dynamic random grouped assigner, cutoff-time straggler policy, and the
admin-facing gRPC validation layer) against its natural-language
specification.

The Python source is embedded shallowly:

* machine state becomes explicit Lean structures, and every mutating method
  becomes a function `State → args → State × Option PyErr` (Python raising
  an exception corresponds to `some e`; the returned state is the state at
  the point of the raise, since Python leaves partial mutations in place);
* Python `dict`s become insertion-ordered association lists, Python `list`s
  become Lean lists, Python numbers become `ℕ`/`ℤ`/`ℚ` (`np.inf` is a
  dedicated constructor of `Cutoff`), and wall-clock time is an explicit
  `now : ℚ` argument;
* the randomness of `np.random.choice` is an oracle `perms : ℕ → List ℕ`
  supplied with the configuration;
* components of the repository that are not part of the source files here
  (the tensor database, the compression codec, the base `Assigner` class)
  are modelled from the specification; each such definition carries a doc
  comment starting with `Modelled from the spec:`.
-/

/-- Python exceptions raised by the modelled code, one constructor per
raise site kind. -/
inductive PyErr where
  /-- `ValueError` from `send_local_task_results`: the aggregator already
  has task results for this `TaskResultKey`. -/
  | duplicateResult
  /-- `ValueError` from `add_collaborator`: the pair was already queued. -/
  | alreadyQueuedAdd
  /-- `ValueError` from `add_collaborator`: the cn is already authorized. -/
  | alreadyAuthorized
  /-- `ValueError` from `remove_collaborator`: the pair was already queued. -/
  | alreadyQueuedRemove
  /-- `ValueError` from `remove_collaborator`: the cn is not authorized. -/
  | notAuthorized
  /-- `ValueError` from Python `list.remove(x)` when `x` is not in the list. -/
  | listRemoveMissing
  /-- `ValueError` from `_process_named_tensor`: base model not in TensorDB. -/
  | baseModelMissing
  /-- Python `TypeError` (e.g. arithmetic on `None`, or a call that omits a
  required positional argument). -/
  | typeErr
  /-- Python `IndexError` (list index out of range). -/
  | indexErr
  /-- Python `ZeroDivisionError`. -/
  | zeroDivisionErr
  /-- Python `KeyError` (missing dict key). -/
  | keyErr
  /-- Python `AttributeError` (attribute not set on the object). -/
  | attributeErr
  /-- Python `AssertionError` (e.g. `'Task groups were not divided properly'`,
  the spec's `PartitionError`). -/
  | assertionErr
deriving DecidableEq, Repr

/-- Ordered association list lookup: Python `d.get(k)` / `k in d`. -/
def lookupA {α β : Type} [DecidableEq α] : List (α × β) → α → Option β
  | [], _ => none
  | (a, b) :: rest, k => if a = k then some b else lookupA rest k

/-- Python dict assignment `d[k] = v`: overwrite in place if the key exists
(preserving its position), otherwise append. -/
def insertA {α β : Type} [DecidableEq α] : List (α × β) → α → β → List (α × β)
  | [], k, v => [(k, v)]
  | (a, b) :: rest, k, v => if a = k then (k, v) :: rest else (a, b) :: insertA rest k v

/-- Python `list.remove(x)`: delete the first element equal to `x`, raising
`ValueError` when no element is equal to `x`. -/
def pyListRemove {α : Type} [DecidableEq α] (xs : List α) (x : α) :
    Except PyErr (List α) :=
  if x ∈ xs then .ok (xs.erase x) else .error .listRemoveMissing

/-!
## Straggler policy: `CutoffTimeBasedStragglerHandling`

From `openfl/component/straggler_handling_functions/cutoff_time_based_straggler_handling.py`.
-/

/-- A Python float used as a cutoff: a finite value or `np.inf`. -/
inductive Cutoff where
  | fin (t : ℚ)
  | inf
deriving DecidableEq, Repr

/-- Python `max(c, m)` where `c` may be `np.inf` and `m` is finite. -/
def cutoffMax (c : Cutoff) (m : ℚ) : Cutoff :=
  match c with
  | .fin t => .fin (max t m)
  | .inf => .inf

/-- The class constant `MINIMUM_CUTOFF_SECONDS = 20`. -/
def MINIMUM_CUTOFF_SECONDS : ℚ := 20

/-- State of a `CutoffTimeBasedStragglerHandling` instance.  `timerArmed`
stands for the `timer` attribute being set (an armed `threading.Timer`);
`hasCallback` for the `callback` attribute being set. -/
structure PolicyState where
  round_start_time : Option ℚ
  straggler_cutoff_time : Cutoff
  minimum_reporting : ℤ
  timerArmed : Bool
  hasCallback : Bool
deriving DecidableEq, Repr

/-- `_set_cutoff_time`: clamp the requested cutoff to the 20-second class
minimum (`max` keeps `np.inf` as `np.inf`). -/
def setCutoffVal (straggler_cutoff_time : Cutoff) : Cutoff :=
  cutoffMax straggler_cutoff_time MINIMUM_CUTOFF_SECONDS

/-- `CutoffTimeBasedStragglerHandling.__init__`: rejects
`minimum_reporting <= 0`, stores the clamped cutoff. -/
def CutoffPolicy.init (round_start_time : Option ℚ) (straggler_cutoff_time : Cutoff)
    (minimum_reporting : ℤ) : Except PyErr PolicyState :=
  if minimum_reporting ≤ 0 then .error .typeErr
  else .ok { round_start_time := round_start_time
             straggler_cutoff_time := setCutoffVal straggler_cutoff_time
             minimum_reporting := minimum_reporting
             timerArmed := false
             hasCallback := false }

/-- `__straggler_time_expired`: a round start time has been recorded and
strictly more than `straggler_cutoff_time` seconds have passed since it.
A comparison against `np.inf` is never true. -/
def stragglerTimeExpired (now : ℚ) (s : PolicyState) : Bool :=
  match s.round_start_time with
  | none => false
  | some start =>
    match s.straggler_cutoff_time with
    | .fin t => decide (now - start > t)
    | .inf => false

/-- `straggler_cutoff_check(num_collaborators_done, num_all_collaborators)`:
false while the timer has not expired, else true exactly when at least
`minimum_reporting` collaborators are done.  `total` is accepted and unused,
as in the source. -/
def straggler_cutoff_check (now : ℚ) (s : PolicyState) (done total : ℕ) : Bool :=
  if ¬ stragglerTimeExpired now s then false
  else if (done : ℤ) ≥ s.minimum_reporting then true
  else false

/-- `reset_policy_for_round`: cancel and drop the timer if one is armed. -/
def resetPolicyForRound (s : PolicyState) : PolicyState :=
  { s with timerArmed := false }

/-- `start_policy(callback)`: a no-op when the cutoff is `np.inf` (policy
disabled); otherwise cancel any previous timer, record the round start time
and arm a fresh timer, remembering the callback. -/
def startPolicy (now : ℚ) (s : PolicyState) : PolicyState :=
  match s.straggler_cutoff_time with
  | .inf => s
  | .fin _ =>
    let s1 := resetPolicyForRound s
    { s1 with round_start_time := some now, timerArmed := true, hasCallback := true }

/-- `set_straggler_cutoff_time(v)`: cancel the pending timer, store the
clamped new value, then either invoke the callback inline (when the new
deadline relative to round start has already passed) or arm a timer for the
remaining interval.  The returned `Bool` records whether the callback was
invoked.  Accessing `self.callback` when `start_policy` never ran raises
`AttributeError`; computing `time.time() - self.round_start_time` when the
round start is `None` raises `TypeError` — in both cases the new cutoff has
already been stored (the store happens first in the source). -/
def setStragglerCutoffTime (now : ℚ) (s : PolicyState) (v : Cutoff) :
    PolicyState × Option PyErr × Bool :=
  let s1 := resetPolicyForRound s
  let s2 := { s1 with straggler_cutoff_time := setCutoffVal v }
  if stragglerTimeExpired now s2 then
    if s2.hasCallback then (s2, none, true) else (s2, some .attributeErr, false)
  else
    match s2.round_start_time with
    | none => (s2, some .typeErr, false)
    | some _ =>
      if s2.hasCallback then ({ s2 with timerArmed := true }, none, false)
      else (s2, some .attributeErr, false)

/-!
## Task assigner: `DynamicRandomGroupedAssigner`

From `openfl/component/assigner/dynamic_random_grouped_assigner.py`.  The
base `Assigner` class is not among the source files; only the state fields
it initializes and two trivial membership operations are modelled from the
spec where needed.
-/

/-- A task group of the plan: `{name, percentage, tasks}` (the
`aggregation_type` passes through opaquely and is carried in the
configuration, not here). -/
structure TaskGroup where
  name : String
  percentage : ℚ
  tasks : List String
deriving DecidableEq, Repr

/-- State of a `DynamicRandomGroupedAssigner`.  The per-collaborator and
per-task maps are total functions (Python dicts indexed by collaborator
name / task name and round number). -/
structure AssignerState where
  task_groups : List TaskGroup
  authorized_cols : List String
  rounds : ℕ
  collaborators_to_assign : List String
  all_tasks_in_groups : List String
  collaborator_tasks : String → ℕ → List String
  collaborators_for_task : String → ℕ → List String
  task_group_collaborators : String → List String

/-- Point update of a two-argument map. -/
def update2 (f : String → ℕ → List String) (a : String) (b : ℕ)
    (v : List String) : String → ℕ → List String :=
  fun x y => if x = a ∧ y = b then v else f x y

/-- Python `int()` applied to an exact rational: truncation toward zero
(`Int` division in Lean truncates toward zero, and `q.den` is positive). -/
def pyInt (q : ℚ) : ℤ := q.num / q.den

/-- `int(group['percentage'] * col_list_size)` of `assign_tasks`. -/
def numColInGroup (p : ℚ) (n : ℕ) : ℕ := (pyInt (p * n)).toNat

/-- One iteration of the `for group in self.task_groups` loop of
`assign_tasks`: slice `num_col_in_group` indices out of the permutation
starting at `col_idx`, select those collaborators, give each of them the
group's task list for this round, append them to the reverse index of each
of the group's tasks, and record them under the group's name. -/
def assignGroup (s : AssignerState) (round_num : ℕ) (ridx : List ℕ)
    (colIdx : ℕ) (g : TaskGroup) : AssignerState × ℕ × List String :=
  let n := s.collaborators_to_assign.length
  let num := numColInGroup g.percentage n
  let sel := ((ridx.drop colIdx).take num).map
    (fun i => s.collaborators_to_assign.getD i "")
  let ct := sel.foldl (fun f c => update2 f c round_num g.tasks) s.collaborator_tasks
  let ft := g.tasks.foldl
    (fun f t => update2 f t round_num (f t round_num ++ sel)) s.collaborators_for_task
  ({ s with collaborator_tasks := ct
            collaborators_for_task := ft
            task_group_collaborators :=
              Function.update s.task_group_collaborators g.name sel },
   colIdx + num, sel)

/-- The full `for group in self.task_groups` loop, also returning the final
`col_idx` and the per-group selections in declared order. -/
def assignGroupsGo (round_num : ℕ) (ridx : List ℕ) :
    List TaskGroup → AssignerState → ℕ → AssignerState × ℕ × List (List String)
  | [], s, colIdx => (s, colIdx, [])
  | g :: gs, s, colIdx =>
    let p := assignGroup s round_num ridx colIdx g
    let q := assignGroupsGo round_num ridx gs p.1 p.2.1
    (q.1, q.2.1, p.2.2 :: q.2.2)

/-- One round of `assign_tasks`: run the group loop over the supplied
permutation and then `assert col_idx == col_list_size` ('Task groups were
not divided properly'). -/
def assignTasksRound (s : AssignerState) (round_num : ℕ) (ridx : List ℕ) :
    AssignerState × Option PyErr × List (List String) :=
  let q := assignGroupsGo round_num ridx s.task_groups s 0
  if q.2.1 = s.collaborators_to_assign.length then (q.1, none, q.2.2)
  else (q.1, some .assertionErr, q.2.2)

/-- Python `range(a, b)`. -/
def pyRange (a b : ℕ) : List ℕ := List.range' a (b - a)

/-- First loop of `assign_tasks`: for authorized collaborators that are no
longer in `collaborators_to_assign`, empty their task lists for every round
from `from_round` on. -/
def clearDroppedCols (s : AssignerState) (from_round : ℕ) : AssignerState :=
  let ct := s.authorized_cols.foldl
    (fun f col =>
      if col ∈ s.collaborators_to_assign then f
      else (pyRange from_round s.rounds).foldl (fun f2 i => update2 f2 col i []) f)
    s.collaborator_tasks
  { s with collaborator_tasks := ct }

/-- Second loop of `assign_tasks`: reset `collaborators_for_task` to empty
for every task and every round from `from_round` on. -/
def resetTasksFT (s : AssignerState) (from_round : ℕ) : AssignerState :=
  let ft := s.all_tasks_in_groups.foldl
    (fun f task =>
      (pyRange from_round s.rounds).foldl (fun f2 r => update2 f2 task r []) f)
    s.collaborators_for_task
  { s with collaborators_for_task := ft }

/-- The `for round_num in range(from_round, self.rounds)` loop of
`assign_tasks`; an `AssertionError` aborts the loop, leaving the partially
mutated state. -/
def assignRoundsGo (perms : ℕ → List ℕ) :
    List ℕ → AssignerState → AssignerState × Option PyErr
  | [], s => (s, none)
  | r :: rs, s =>
    let q := assignTasksRound s r (perms r)
    match q.2.1 with
    | some e => (q.1, some e)
    | none => assignRoundsGo perms rs q.1

/-- `assign_tasks(from_round)`: clear dropped collaborators, reset the
reverse index for future rounds, then re-assign every round from
`from_round` to `self.rounds`, drawing one permutation per round from the
oracle. -/
def assign_tasks (perms : ℕ → List ℕ) (s : AssignerState) (from_round : ℕ) :
    AssignerState × Option PyErr :=
  assignRoundsGo perms (pyRange from_round s.rounds)
    (resetTasksFT (clearDroppedCols s from_round) from_round)

/-- `DynamicRandomGroupedAssigner.end_of_round(available, stragglers,
next_round)`: the next assignees are the available collaborators minus the
stragglers; if (as sorted lists, i.e. as multisets) they coincide with the
current `collaborators_to_assign`, return with no re-planning, else store
them and re-assign from `next_round`. -/
def assignerEndOfRound (perms : ℕ → List ℕ) (s : AssignerState)
    (available stragglers : List String) (next_round : ℕ) :
    AssignerState × Option PyErr :=
  let cta := available.filter (fun c => decide (c ∉ stragglers))
  if (cta : Multiset String) = (s.collaborators_to_assign : Multiset String) then
    (s, none)
  else
    assign_tasks perms { s with collaborators_to_assign := cta } next_round

/-- Modelled from the spec: the base `Assigner`'s `add_collaborator`
(named in the assigner capability set of §4.4; its class is not among the
source files).  The authorized roster gains the new common name; the task
maps are total functions already defaulting to the empty list. -/
def assignerAddCollab (s : AssignerState) (cn : String) : AssignerState :=
  { s with authorized_cols := s.authorized_cols ++ [cn] }

/-- Modelled from the spec: the base `Assigner`'s `remove_collaborator`
(named in the assigner capability set of §4.4; its class is not among the
source files). -/
def assignerRemoveCollab (s : AssignerState) (cn : String) : AssignerState :=
  { s with authorized_cols := s.authorized_cols.erase cn }

/-!
## Aggregator data model

From `openfl/utilities/types.py` and `openfl/component/aggregator/aggregator.py`.
-/

/-- `TensorKey`: the immutable 5-tuple identifying a tensor.  Equality is
structural over all five fields; `tags` ordering is significant. -/
structure TensorKey where
  tensor_name : String
  origin : String
  round_number : ℕ
  report : Bool
  tags : List String
deriving DecidableEq, Repr

/-- `TaskResultKey`: the immutable triple identifying one collaborator's
submission for one task of one round. -/
structure TaskResultKey where
  task_name : String
  owner : String
  round_number : ℕ
deriving DecidableEq, Repr

/-- A value held in the two admin pending-change queues.  The queues are
Python lists whose intended elements are `(label, cn)` pairs, but the
source also calls `list.remove` with a bare cn string, so elements and
probes of both shapes coexist; Python equality between a string and a
tuple is false, matching the derived equality here. -/
inductive PyVal where
  | str (s : String)
  | pair (a b : String)
deriving DecidableEq, Repr

/-- A named tensor on the wire: `data` stands for the opaque compressed
payload (`data_bytes` plus `transformer_metadata`), as the number the codec
yields for it. -/
structure NamedTensor where
  name : String
  round_number : ℕ
  report : Bool
  tags : List String
  data : ℚ
deriving DecidableEq, Repr

/-- A record put on the metric queue. -/
structure MetricRecord where
  round : ℕ
  metric_origin : String
  task_name : String
  metric_name : String
  metric_value : ℚ
deriving DecidableEq, Repr

/-- The dictionary built by `_get_round_status`. -/
structure RoundStatus where
  round : ℕ
  round_start : Option ℚ
  collaborators : List String
  start_times : List (String × ℚ)
  end_times : List (String × List (String × ℚ))
  stragglers : List String
  to_add_next_round : List PyVal
  to_remove_next_round : List PyVal
  available_collaborators : List String
  assigned_collaborators : List String
deriving DecidableEq

/-- Immutable configuration of the aggregator: plan settings plus the
external numeric components.  `decompressFn`/`lossyDecompressFn` and
`compressFn` model the codec pipeline (`openfl.pipelines`, not among the
source files; the spec treats them as opaque pure functions), and
`aggWeighted`/`aggTask` the pluggable aggregation kernels applied to
`(value, normalised weight)` pairs. -/
structure AggConfig where
  uuid : String
  rounds_to_train : ℕ
  db_store_rounds : ℕ
  model_tensor_names : List String
  compressFn : ℚ → ℚ
  decompressFn : ℚ → ℚ
  lossyDecompressFn : ℚ → ℚ
  aggWeighted : List (ℚ × ℚ) → ℚ
  aggTask : String → List (ℚ × ℚ) → ℚ
  perms : ℕ → List ℕ

/-- Mutable state of an `Aggregator` instance (the fields the modelled
methods read or write). -/
structure AggState where
  round_number : ℕ
  quit_job_sent_to : List String
  authorized_cols : List String
  end_of_round_check_done : List Bool
  straggler_handling_policy_started_for_round : Bool
  stragglers : List String
  available_collaborators : List String
  collaborator_task_weight : List (TaskResultKey × ℕ)
  collaborator_tasks_results : List (TaskResultKey × List TensorKey)
  collaborators_done : List String
  collaborator_start_time : List (String × ℚ)
  collaborator_end_time : List (String × List (String × ℚ))
  first_col_start : Option ℚ
  previous_round_status : Option RoundStatus
  tensor_db : List (TensorKey × ℚ)
  metric_queue : List MetricRecord
  best_model_score : Option ℚ
  best_tensor_dict : List (String × ℚ)
  last_tensor_dict : List (String × ℚ)
  collaborators_to_add : List PyVal
  collaborators_to_remove : List PyVal
  dynamictaskargs : Option (List ((String × String) × ℚ))
  dynamic_arg_cache : List ((String × String × ℕ) × ℚ)
  assigner : AssignerState
  policy : PolicyState

/-- `_time_to_quit`: all rounds are complete. -/
def timeToQuit (cfg : AggConfig) (s : AggState) : Bool :=
  decide (s.round_number ≥ cfg.rounds_to_train)

/-- `all_quit_jobs_sent`:
`set(self.quit_job_sent_to) == set(self.authorized_cols)`. -/
def allQuitJobsSent (s : AggState) : Bool :=
  decide (s.quit_job_sent_to.toFinset = s.authorized_cols.toFinset)

/-- `_collaborator_task_completed`: a result is recorded under
`TaskResultKey(task_name, collaborator, round_num)`. -/
def collaboratorTaskCompleted (s : AggState) (collaborator task_name : String)
    (round_num : ℕ) : Bool :=
  (lookupA s.collaborator_tasks_results ⟨task_name, collaborator, round_num⟩).isSome

/-- `valid_admin_cn_and_id`: the certificate common name equals the sender
and the sender is a key of `admins_endpoints_mapping`. -/
def validAdminCnAndId (mapping : List (String × List String))
    (cert_common_name admin_common_name : String) : Bool :=
  decide (cert_common_name = admin_common_name) &&
    (lookupA mapping admin_common_name).isSome

/-- `valid_admin_endpoint(endpoint_id, admin_common_name)`: the endpoint is
in that admin's allowed set.  The source assumes the key exists (`KeyError`
otherwise). -/
def valid_admin_endpoint (mapping : List (String × List String))
    (endpoint_id admin_common_name : String) : Except PyErr Bool :=
  match lookupA mapping admin_common_name with
  | none => .error .keyErr
  | some allowed => .ok (decide (endpoint_id ∈ allowed))

/-- Outcome of `AggregatorGRPCServer.validate_admin` (from
`openfl/transport/grpc/aggregator_server.py`): either a gRPC abort or a
Python exception escaping the handler. -/
inductive AdminValidation where
  /-- `context.abort(StatusCode.UNAUTHENTICATED, ...)`. -/
  | unauthenticated
  /-- `context.abort(StatusCode.UNAVAILABLE, ...)` — the endpoint is not
  permitted (the spec's `Unauthorized`). -/
  | unauthorized
  /-- A Python exception escaped the handler. -/
  | pyRaise (e : PyErr)
  /-- Validation passed; the request proceeds to the aggregator. -/
  | ok
deriving DecidableEq, Repr

/-- `validate_admin(request, context, endpoint_name)`.  After the optional
TLS common-name check, the source calls
`self.aggregator.valid_admin_endpoint(endpoint_name)` — omitting the
required `admin_common_name` positional argument of
`Aggregator.valid_admin_endpoint(endpoint_id, admin_common_name)` — so
Python raises `TypeError` before that method's body can run, on every
request that passes authentication. -/
def validateAdmin (tls : Bool) (mapping : List (String × List String))
    (cert_common_name sender endpoint_name : String) : AdminValidation :=
  if tls && !(validAdminCnAndId mapping cert_common_name sender) then
    .unauthenticated
  else
    .pyRaise .typeErr

/-- `add_collaborator(collaborator_label, collaborator_cn)`: cancel a queued
inverse change, else reject an already-queued or already-authorized cn, else
enqueue.  The cancellation path calls
`self.collaborators_to_remove.remove(collaborator_cn)` with the bare cn
although the queue holds `(label, cn)` pairs. -/
def addCollaborator (s : AggState) (collaborator_label collaborator_cn : String) :
    AggState × Option PyErr :=
  if PyVal.pair collaborator_label collaborator_cn ∈ s.collaborators_to_remove then
    match pyListRemove s.collaborators_to_remove (PyVal.str collaborator_cn) with
    | .ok q => ({ s with collaborators_to_remove := q }, none)
    | .error e => (s, some e)
  else if PyVal.pair collaborator_label collaborator_cn ∈ s.collaborators_to_add then
    (s, some .alreadyQueuedAdd)
  else if collaborator_cn ∈ s.authorized_cols then
    (s, some .alreadyAuthorized)
  else
    ({ s with collaborators_to_add :=
        s.collaborators_to_add ++ [PyVal.pair collaborator_label collaborator_cn] },
     none)

/-- `remove_collaborator(collaborator_label, collaborator_cn)`: mirror image
of `add_collaborator`, with the same bare-cn `list.remove` on the
cancellation path. -/
def removeCollaborator (s : AggState) (collaborator_label collaborator_cn : String) :
    AggState × Option PyErr :=
  if PyVal.pair collaborator_label collaborator_cn ∈ s.collaborators_to_add then
    match pyListRemove s.collaborators_to_add (PyVal.str collaborator_cn) with
    | .ok q => ({ s with collaborators_to_add := q }, none)
    | .error e => (s, some e)
  else if PyVal.pair collaborator_label collaborator_cn ∈ s.collaborators_to_remove then
    (s, some .alreadyQueuedRemove)
  else if collaborator_cn ∉ s.authorized_cols then
    (s, some .notAuthorized)
  else
    ({ s with collaborators_to_remove :=
        s.collaborators_to_remove ++ [PyVal.pair collaborator_label collaborator_cn] },
     none)

/-!
## Tensor processing and result submission
-/

/-- Modelled from the spec: `change_tags(tags, add_field=t)`
(`openfl.utilities`, not among the source files) — append the tag unless
already present. -/
def addTag (tags : List String) (t : String) : List String :=
  if t ∈ tags then tags else tags ++ [t]

/-- Modelled from the spec: `TensorDB.cache_tensor` (`openfl.databases`,
not among the source files) — overwrite-allowed keyed insertion. -/
def cacheTensor (db : List (TensorKey × ℚ)) (k : TensorKey) (v : ℚ) :
    List (TensorKey × ℚ) :=
  insertA db k v

/-- `_process_named_tensor`: rebuild the tensor key with the aggregator as
origin, assert the payload is compressed, decompress (removing the
compression tag and adding the collaborator name tag), reconstruct the
absolute tensor from the stored `model` base when the payload is a delta
(`apply_delta` strips the `delta` tag and adds the base, per the codec
spec), and cache the result. -/
def processNamedTensor (cfg : AggConfig) (s : AggState)
    (collaborator_name : String) (nt : NamedTensor) :
    AggState × Except PyErr (TensorKey × ℚ) :=
  if ¬ ("compressed" ∈ nt.tags ∨ "lossy_compressed" ∈ nt.tags) then
    (s, .error .assertionErr)
  else
    let dec1 : Option (TensorKey × ℚ) :=
      if "compressed" ∈ nt.tags then
        some (⟨nt.name, cfg.uuid, nt.round_number, nt.report,
               addTag (nt.tags.erase "compressed") collaborator_name⟩,
              cfg.decompressFn nt.data)
      else none
    let dec2 : Option (TensorKey × ℚ) :=
      if "lossy_compressed" ∈ nt.tags then
        some (⟨nt.name, cfg.uuid, nt.round_number, nt.report,
               addTag (nt.tags.erase "lossy_compressed") collaborator_name⟩,
              cfg.lossyDecompressFn nt.data)
      else dec1
    match dec2 with
    | none => (s, .error .assertionErr)
    | some (dk, dv) =>
      if "delta" ∈ nt.tags then
        match lookupA s.tensor_db
            ⟨nt.name, cfg.uuid, nt.round_number, nt.report, ["model"]⟩ with
        | none => (s, .error .baseModelMissing)
        | some base =>
          let fk : TensorKey := { dk with tags := dk.tags.erase "delta" }
          ({ s with tensor_db := cacheTensor s.tensor_db fk (dv + base) },
           .ok (fk, dv + base))
      else
        ({ s with tensor_db := cacheTensor s.tensor_db dk dv }, .ok (dk, dv))

/-- The `for named_tensor in named_tensors` loop of
`send_local_task_results`: process each tensor, put a metric record on the
queue for `metric`-tagged results, and collect the result keys in order. -/
def processAllTensors (cfg : AggConfig) (collaborator_name : String)
    (round_number : ℕ) (task_name : String) :
    AggState → List NamedTensor → AggState × Except PyErr (List TensorKey)
  | s, [] => (s, .ok [])
  | s, nt :: rest =>
    match processNamedTensor cfg s collaborator_name nt with
    | (s1, .error e) => (s1, .error e)
    | (s1, .ok (tk, v)) =>
      let s2 :=
        if "metric" ∈ tk.tags then
          { s1 with metric_queue := s1.metric_queue ++
              [⟨round_number, collaborator_name, task_name, tk.tensor_name, v⟩] }
        else s1
      match processAllTensors cfg collaborator_name round_number task_name s2 rest with
      | (s3, .error e) => (s3, .error e)
      | (s3, .ok tks) => (s3, .ok (tk :: tks))

/-- `_is_collaborator_done`: when the collaborator has results for every
task assigned to it this round, append it to `collaborators_done`. -/
def isCollaboratorDone (s : AggState) (collaborator_name : String) : AggState :=
  let all_tasks := s.assigner.collaborator_tasks collaborator_name s.round_number
  if all_tasks.all
      (fun t => collaboratorTaskCompleted s collaborator_name t s.round_number) then
    { s with collaborators_done := s.collaborators_done ++ [collaborator_name] }
  else s

/-!
## End-of-round processing
-/

/-- `_get_round_status`. -/
def getRoundStatus (s : AggState) : RoundStatus :=
  { round := s.round_number
    round_start := s.first_col_start
    collaborators := s.authorized_cols
    start_times := s.collaborator_start_time
    end_times := s.collaborator_end_time
    stragglers := s.stragglers
    to_add_next_round := s.collaborators_to_add
    to_remove_next_round := s.collaborators_to_remove
    available_collaborators := s.available_collaborators
    assigned_collaborators := s.assigner.collaborators_to_assign }

/-- Modelled from the spec: `TensorDB.get_aggregated_tensor` (§4.1;
`openfl.databases` is not among the source files) — append each
collaborator name to the template's tags, fetch each tensor, and combine
them with the aggregation kernel; `none` when a contributor is missing. -/
def dbGetAggregatedTensor (cfg : AggConfig) (db : List (TensorKey × ℚ))
    (k : TensorKey) (weights : List (String × ℚ)) (isMetric : Bool)
    (task_name : String) : Option ℚ :=
  let fetched := weights.map
    (fun cw => ((lookupA db { k with tags := k.tags ++ [cw.1] }), cw.2))
  if fetched.any (fun p => p.1.isNone) then none
  else
    let pairs := fetched.map (fun p => (p.1.getD 0, p.2))
    some (if isMetric then cfg.aggWeighted pairs else cfg.aggTask task_name pairs)

/-- `_save_model(round_number, file_path)`: fetch every model-layer tensor
of the given round from the TensorDB; if any is missing, log and return
with no change, otherwise update the corresponding tensor dict and rebuild
`self.model`.  `isBest` selects `best_state_path` versus `last_state_path`. -/
def saveModel (cfg : AggConfig) (s : AggState) (round_number : ℕ)
    (isBest : Bool) : AggState :=
  let fetched := cfg.model_tensor_names.map
    (fun n => (n, lookupA s.tensor_db ⟨n, cfg.uuid, round_number, false, ["model"]⟩))
  if fetched.any (fun p => p.2.isNone) then s
  else
    let d := fetched.map (fun p => (p.1, p.2.getD 0))
    if isBest then { s with best_tensor_dict := d }
    else { s with last_tensor_dict := d }

/-- `_prepare_trained`: cache the aggregated layer under `aggregated` at
`round_number + 1`, make a delta against this round's `model` layer when
one exists (`generate_delta` appends the `delta` tag and subtracts the
base), push it through compress-then-decompress so that any lossy error
manifests in the stored baseline, cache the decompressed delta, apply the
delta back, and cache the result under the `model` tag. -/
def prepareTrained (cfg : AggConfig) (s : AggState) (tensor_name origin : String)
    (round_number : ℕ) (report : Bool) (agg_results : ℚ) : AggState :=
  let agg_tag_tk : TensorKey := ⟨tensor_name, origin, round_number + 1, report, ["aggregated"]⟩
  let db1 := cacheTensor s.tensor_db agg_tag_tk agg_results
  let base := lookupA db1 ⟨tensor_name, origin, round_number, report, ["model"]⟩
  let dp : TensorKey × ℚ :=
    match base with
    | some b => ({ agg_tag_tk with tags := agg_tag_tk.tags ++ ["delta"] }, agg_results - b)
    | none => (agg_tag_tk, agg_results)
  let roundTripped := cfg.decompressFn (cfg.compressFn dp.2)
  let db2 := cacheTensor db1 dp.1 roundTripped
  let newModel : ℚ :=
    match base with
    | some b => roundTripped + b
    | none => roundTripped
  let final_model_tk : TensorKey := ⟨tensor_name, origin, round_number + 1, report, ["model"]⟩
  { s with tensor_db := cacheTensor db2 final_model_tk newModel }

/-- The `for tensor_key in self.collaborator_tasks_results[task_key]` loop
of `_compute_validation_related_task_metrics`: check the collaborator tag,
strip it, aggregate (with `WeightedAverage` for `metric`-tagged tensors,
else the task's declared aggregation kernel), report metrics and track the
best model for `report`-flagged results, and run `_prepare_trained` for
`trained`-tagged results.  `float(None)` and arithmetic on a `None`
aggregation result raise `TypeError`. -/
def computeTensorKeysLoop (cfg : AggConfig) (c0 task_name : String)
    (wdict : List (String × ℚ)) :
    AggState → List TensorKey → AggState × Option PyErr
  | s, [] => (s, none)
  | s, tk :: rest =>
    if c0 ∉ tk.tags then (s, some .assertionErr)
    else
      let agg_tensor_key : TensorKey := { tk with tags := tk.tags.erase c0 }
      let aggOpt := dbGetAggregatedTensor cfg s.tensor_db agg_tensor_key wdict
        ("metric" ∈ tk.tags) task_name
      if tk.report then
        match aggOpt with
        | none => (s, some .typeErr)
        | some a =>
          let s1 := { s with metric_queue := s.metric_queue ++
            [⟨tk.round_number, "aggregator", task_name, tk.tensor_name, a⟩] }
          let s2 :=
            if "validate_agg" ∈ tk.tags then
              match s1.best_model_score with
              | none =>
                saveModel cfg { s1 with best_model_score := some a } tk.round_number true
              | some best =>
                if best < a then
                  saveModel cfg { s1 with best_model_score := some a } tk.round_number true
                else s1
            else s1
          if "trained" ∈ tk.tags then
            computeTensorKeysLoop cfg c0 task_name wdict
              (prepareTrained cfg s2 tk.tensor_name tk.origin tk.round_number tk.report a)
              rest
          else computeTensorKeysLoop cfg c0 task_name wdict s2 rest
      else
        if "trained" ∈ tk.tags then
          match aggOpt with
          | none => (s, some .typeErr)
          | some a =>
            computeTensorKeysLoop cfg c0 task_name wdict
              (prepareTrained cfg s tk.tensor_name tk.origin tk.round_number tk.report a)
              rest
        else computeTensorKeysLoop cfg c0 task_name wdict s rest

/-- `_compute_validation_related_task_metrics(task_name)`: restrict the
task's assigned collaborators to those in `collaborators_done`, normalise
their recorded data sizes (a missing weight is a `KeyError`, an all-zero
total a `ZeroDivisionError`), then aggregate every tensor key the first
such collaborator submitted (`collaborators_for_task[0]` is an `IndexError`
when no assigned collaborator finished). -/
def computeValidationRelatedTaskMetrics (cfg : AggConfig) (s : AggState)
    (task_name : String) : AggState × Option PyErr :=
  let all_cols := s.assigner.collaborators_for_task task_name s.round_number
  let cols := all_cols.filter (fun c => decide (c ∈ s.collaborators_done))
  let wOpts := cols.map
    (fun c => (c, lookupA s.collaborator_task_weight ⟨task_name, c, s.round_number⟩))
  if wOpts.any (fun p => p.2.isNone) then (s, some .keyErr)
  else
    let weights := wOpts.map (fun p => (p.1, p.2.getD 0))
    let total : ℕ := (weights.map (fun p => p.2)).sum
    if weights ≠ [] ∧ total = 0 then (s, some .zeroDivisionErr)
    else
      let wdict := weights.map (fun p => (p.1, (p.2 : ℚ) / (total : ℚ)))
      match cols with
      | [] => (s, some .indexErr)
      | c0 :: _ =>
        match lookupA s.collaborator_tasks_results ⟨task_name, c0, s.round_number⟩ with
        | none => (s, some .keyErr)
        | some tkeys => computeTensorKeysLoop cfg c0 task_name wdict s tkeys

/-- The `for task_name in all_tasks` loop of `_end_of_round_check`. -/
def computeAllTaskMetrics (cfg : AggConfig) :
    AggState → List String → AggState × Option PyErr
  | s, [] => (s, none)
  | s, t :: rest =>
    match computeValidationRelatedTaskMetrics cfg s t with
    | (s1, some e) => (s1, some e)
    | (s1, none) => computeAllTaskMetrics cfg s1 rest

/-- `_write_dynamic_task_args`: copy every declared dynamic task argument's
current value into the TensorDB's dynamic-argument cache for the current
round (a no-op when no dynamic task args are configured). -/
def writeDynamicTaskArgs (s : AggState) : AggState :=
  match s.dynamictaskargs with
  | none => s
  | some args =>
    let cache := args.foldl
      (fun m kv => insertA m (kv.1.1, kv.1.2, s.round_number) kv.2)
      s.dynamic_arg_cache
    { s with dynamic_arg_cache := cache }

/-- Unpack a pending-change queue as the `for col_label, col_cn in ...`
loops do; a non-pair element would fail tuple unpacking (`TypeError`). -/
def pendingPairs : List PyVal → Option (List (String × String))
  | [] => some []
  | .pair a b :: rest => (pendingPairs rest).map (fun l => (a, b) :: l)
  | .str _ :: _ => none

/-- The `for col_label, col_cn in self.collaborators_to_remove` loop at the
end of `_end_of_round_check`: `self.authorized_cols.remove(col_cn)` is an
unguarded Python `list.remove` and raises `ValueError` when the cn is
absent, aborting the loop. -/
def applyRemovals : List (String × String) → AggState → AggState × Option PyErr
  | [], st => (st, none)
  | (_, cn) :: rest, st =>
    match pyListRemove st.authorized_cols cn with
    | .error e => (st, some e)
    | .ok cols =>
      applyRemovals rest
        { st with authorized_cols := cols
                  assigner := assignerRemoveCollab st.assigner cn }

/-- The remove-loop of `_end_of_round_check` followed by
`self.collaborators_to_remove.clear()` (which only runs when the loop did
not raise). -/
def applyRemovalsAndClear (rems : List (String × String)) (st : AggState) :
    AggState × Option PyErr :=
  match applyRemovals rems st with
  | (s14, some e) => (s14, some e)
  | (s14, none) => ({ s14 with collaborators_to_remove := [] }, none)

/-- The part of `_end_of_round_check` after the round counter advance
(source lines 1174-1250): fold the pending membership changes into
`available_collaborators`, notify the assigner, reset the per-round
bookkeeping, save the latest model, evict old TensorDB rounds, reset the
straggler policy, write the dynamic task args, and apply and clear the
pending add/remove queues. -/
def endOfRoundTail (cfg : AggConfig) (s4 : AggState) : AggState × Option PyErr :=
  match pendingPairs s4.collaborators_to_add,
        pendingPairs s4.collaborators_to_remove with
  | none, _ => (s4, some .typeErr)
  | _, none => (s4, some .typeErr)
  | some adds, some rems =>
        let avail1 := adds.foldl
          (fun l p => if p.2 ∈ l then l else l ++ [p.2]) s4.available_collaborators
        let avail2 := rems.foldl
          (fun l p => if p.2 ∈ l then l.erase p.2 else l) avail1
        let s5 := { s4 with available_collaborators := avail2 }
        let aq := assignerEndOfRound cfg.perms s5.assigner
          s5.available_collaborators s5.stragglers s5.round_number
        let s6 := { s5 with assigner := aq.1 }
        match aq.2 with
        | some e => (s6, some e)
        | none =>
          let s7 := { s6 with straggler_handling_policy_started_for_round := false
                              stragglers := []
                              available_collaborators := []
                              collaborators_done := [] }
          let s8 := saveModel cfg s7 s7.round_number false
          let db9 := s8.tensor_db.filter
            (fun p => decide ((s8.round_number : ℤ) - cfg.db_store_rounds
                        ≤ (p.1.round_number : ℤ)))
          let s9 := { s8 with tensor_db := db9 }
          let s10 := { s9 with policy := resetPolicyForRound s9.policy }
          let s11 := writeDynamicTaskArgs s10
          let s12 := adds.foldl
            (fun st p => { st with authorized_cols := st.authorized_cols ++ [p.2]
                                   assigner := assignerAddCollab st.assigner p.2 })
            s11
          let s13 := { s12 with collaborators_to_add := [] }
          applyRemovalsAndClear rems s13

/-- `_end_of_round_check`: return unchanged when this round's work is
already done (`IndexError` when `round_number` is outside the
`rounds_to_train`-sized flag list); otherwise aggregate every task's
metrics, snapshot the round status, reset the monitoring maps, mark the
round done, advance `round_number`, fold the pending membership changes
into `available_collaborators`, notify the assigner, reset the per-round
bookkeeping, save the latest model, evict old TensorDB rounds
(`clean_up`, modelled from the spec: drop entries older than
`current − db_store_rounds`), reset the straggler policy, write the dynamic
task args, and finally apply and clear the pending add/remove queues. -/
def endOfRoundCheck (cfg : AggConfig) (s : AggState) : AggState × Option PyErr :=
  match s.end_of_round_check_done.get? s.round_number with
  | none => (s, some .indexErr)
  | some true => (s, none)
  | some false =>
    match computeAllTaskMetrics cfg s s.assigner.all_tasks_in_groups with
    | (s1, some e) => (s1, some e)
    | (s1, none) =>
      let s2 := { s1 with previous_round_status := some (getRoundStatus s1)
                          collaborator_start_time := []
                          collaborator_end_time := []
                          first_col_start := none }
      let s3 := { s2 with end_of_round_check_done :=
                    s2.end_of_round_check_done.set s2.round_number true }
      let s4 := { s3 with round_number := s3.round_number + 1 }
      endOfRoundTail cfg s4

/-- `_end_round_due_to_stragglers`: mark every assigned collaborator that
is not done as a straggler, then run the end-of-round check. -/
def endRoundDueToStragglers (cfg : AggConfig) (s : AggState) :
    AggState × Option PyErr :=
  let strag := s.assigner.collaborators_to_assign.filter
    (fun c => decide (c ∉ s.collaborators_done))
  endOfRoundCheck cfg { s with stragglers := strag }

/-- `_straggler_cutoff_time_elapsed` (the armed timer's callback): apply
the straggler policy and end the round early when the cutoff check passes. -/
def stragglerCutoffTimeElapsed (cfg : AggConfig) (s : AggState) (now : ℚ) :
    AggState × Option PyErr :=
  if straggler_cutoff_check now s.policy s.collaborators_done.length
      s.assigner.collaborators_to_assign.length then
    endRoundDueToStragglers cfg s
  else (s, none)

/-- `Aggregator.set_straggler_cutoff_time`: forward to the policy (the
cutoff-time policy always supports it); when the policy invoked the
callback inline, that callback is `_straggler_cutoff_time_elapsed`. -/
def aggSetStragglerCutoffTime (cfg : AggConfig) (s : AggState) (now : ℚ)
    (v : Cutoff) : AggState × Option PyErr :=
  let pq := setStragglerCutoffTime now s.policy v
  let s1 := { s with policy := pq.1 }
  match pq.2.1 with
  | some e => (s1, some e)
  | none =>
    if pq.2.2 then stragglerCutoffTimeElapsed cfg s1 now else (s1, none)

/-!
## Collaborator-facing RPC entry points
-/

/-- `send_local_task_results(collaborator_name, round_number, task_name,
data_size, named_tensors)`: silently discard late (straggler / quitting)
and wrong-round submissions, reject a duplicate `TaskResultKey` with a
`ValueError` before any state changes, otherwise record the task weight,
process every named tensor, record the result keys and the task end time
(`time.time() - self.first_col_start` is a `TypeError` when no round start
was ever recorded), update `collaborators_done`, and run the end-of-round
check when all assigned collaborators are done or the straggler cutoff
check fires. -/
def sendLocalTaskResults (cfg : AggConfig) (s : AggState) (now : ℚ)
    (collaborator_name : String) (round_number : ℕ) (task_name : String)
    (data_size : ℕ) (named_tensors : List NamedTensor) :
    AggState × Option PyErr :=
  if timeToQuit cfg s || decide (collaborator_name ∈ s.stragglers) then (s, none)
  else if s.round_number ≠ round_number then (s, none)
  else
    let task_key : TaskResultKey := ⟨task_name, collaborator_name, round_number⟩
    if collaboratorTaskCompleted s collaborator_name task_name round_number then
      (s, some .duplicateResult)
    else
      let s1 := { s with collaborator_task_weight :=
                    insertA s.collaborator_task_weight task_key data_size }
      match processAllTensors cfg collaborator_name round_number task_name s1
          named_tensors with
      | (s2, .error e) => (s2, some e)
      | (s2, .ok task_results) =>
        let s3 := { s2 with collaborator_tasks_results :=
                      insertA s2.collaborator_tasks_results task_key task_results }
        match s3.first_col_start with
        | none => (s3, some .typeErr)
        | some t0 =>
          let prev := (lookupA s3.collaborator_end_time collaborator_name).getD []
          let endTimes := insertA s3.collaborator_end_time collaborator_name
            (insertA prev task_name (now - t0))
          let s4 := { s3 with collaborator_end_time := endTimes }
          let s5 := isCollaboratorDone s4 collaborator_name
          if s5.collaborators_done.length
              = s5.assigner.collaborators_to_assign.length then
            endOfRoundCheck cfg s5
          else if straggler_cutoff_check now s5.policy
              s5.collaborators_done.length
              s5.assigner.collaborators_to_assign.length then
            endRoundDueToStragglers cfg s5
          else (s5, none)

/-- The reply of `get_tasks`. -/
structure GetTasksReply where
  tasks : Option (List String)
  round_number : ℕ
  sleep_time : ℕ
  time_to_quit : Bool
deriving DecidableEq, Repr

/-- `get_tasks(collaborator_name)`: record the caller as available; send
the quit signal once all rounds are complete; otherwise fetch the
assigner's task list (the legacy bare-name form), drop tasks that already
have results, force an empty list on stragglers, tell an idle caller to
sleep, and on real work start the straggler policy (once per round),
record the round's first start time and this collaborator's relative start
time. -/
def getTasks (cfg : AggConfig) (s : AggState) (now : ℚ)
    (collaborator_name : String) : AggState × GetTasksReply :=
  let s1 :=
    if collaborator_name ∈ s.available_collaborators then s
    else { s with available_collaborators :=
             s.available_collaborators ++ [collaborator_name] }
  if timeToQuit cfg s1 then
    ({ s1 with quit_job_sent_to := s1.quit_job_sent_to ++ [collaborator_name] },
     ⟨none, s1.round_number, 0, true⟩)
  else
    let tasks := s1.assigner.collaborator_tasks collaborator_name s1.round_number
    if tasks = [] then (s1, ⟨none, s1.round_number, 10, false⟩)
    else
      let tasks1 := tasks.filter
        (fun t => !collaboratorTaskCompleted s1 collaborator_name t s1.round_number)
      let tasks2 := if collaborator_name ∈ s1.stragglers then [] else tasks1
      if tasks2 = [] then (s1, ⟨none, s1.round_number, 10, false⟩)
      else
        let s2 :=
          if s1.straggler_handling_policy_started_for_round then s1
          else { s1 with straggler_handling_policy_started_for_round := true
                         policy := startPolicy now s1.policy }
        let s3 :=
          if s2.first_col_start = none then { s2 with first_col_start := some now }
          else s2
        let startTimes := insertA s3.collaborator_start_time collaborator_name
          (now - (s3.first_col_start.getD now))
        let s4 :=
          if (lookupA s3.collaborator_start_time collaborator_name).isNone then
            { s3 with collaborator_start_time := startTimes }
          else s3
        (s4, ⟨some tasks2, s4.round_number, 0, false⟩)

/-- `Aggregator.stop(failed_collaborator)`: append the failed collaborator
(if any) and then every other authorized collaborator to
`quit_job_sent_to`. -/
def aggregatorStop (s : AggState) (failed : Option String) : AggState :=
  let s1 :=
    match failed with
    | some f => { s with quit_job_sent_to := s.quit_job_sent_to ++ [f] }
    | none => s
  { s1 with quit_job_sent_to := s1.quit_job_sent_to ++
      s1.authorized_cols.filter (fun c => decide (some c ≠ failed)) }

/-!
## The coordinator as a transition system

One step per public entry point; `get_experiment_status` and
`get_aggregated_tensor` are read-only (the latter's body only polls the
TensorDB and re-encodes the fetched tensor) and leave the state unchanged.
-/

/-- One invocation of a public coordinator entry point, carrying the
wall-clock time where the handler reads it. -/
inductive Rpc where
  | getTasksRpc (now : ℚ) (collaborator_name : String)
  | sendLocalTaskResultsRpc (now : ℚ) (collaborator_name : String)
      (round_number : ℕ) (task_name : String) (data_size : ℕ)
      (named_tensors : List NamedTensor)
  | timerFired (now : ℚ)
  | addCollaboratorRpc (collaborator_label collaborator_cn : String)
  | removeCollaboratorRpc (collaborator_label collaborator_cn : String)
  | setStragglerCutoffTimeRpc (now : ℚ) (v : Cutoff)
  | getExperimentStatusRpc
  | getAggregatedTensorRpc
  | stopRpc (failed : Option String)

/-- The coordinator's transition function: the state after handling one
RPC (including the state left behind by a raising handler). -/
def step (cfg : AggConfig) (s : AggState) : Rpc → AggState
  | .getTasksRpc now c => (getTasks cfg s now c).1
  | .sendLocalTaskResultsRpc now c r t sz nts =>
    (sendLocalTaskResults cfg s now c r t sz nts).1
  | .timerFired now => (stragglerCutoffTimeElapsed cfg s now).1
  | .addCollaboratorRpc l cn => (addCollaborator s l cn).1
  | .removeCollaboratorRpc l cn => (removeCollaborator s l cn).1
  | .setStragglerCutoffTimeRpc now v => (aggSetStragglerCutoffTime cfg s now v).1
  | .getExperimentStatusRpc => s
  | .getAggregatedTensorRpc => s
  | .stopRpc f => aggregatorStop s f

/-- The state after a sequence of RPC invocations. -/
def run (cfg : AggConfig) : AggState → List Rpc → AggState
  | s, [] => s
  | s, e :: es => run cfg (step cfg s e) es

/-- The end-of-round-done flag for round `r` (false outside the list). -/
def eorFlag (s : AggState) (r : ℕ) : Bool :=
  s.end_of_round_check_done.getD r false

/-- How many steps of a trace complete the end-of-round work for round `r`,
i.e. flip its done flag from false to true. -/
def eorCount (cfg : AggConfig) (r : ℕ) : AggState → List Rpc → ℕ
  | _, [] => 0
  | s, e :: es =>
    (if eorFlag s r = false ∧ eorFlag (step cfg s e) r = true then 1 else 0)
      + eorCount cfg r (step cfg s e) es

/-!
## Concrete instances for evaluation
-/

/-- An empty assigner state. -/
def emptyAssigner : AssignerState :=
  { task_groups := []
    authorized_cols := []
    rounds := 1
    collaborators_to_assign := []
    all_tasks_in_groups := []
    collaborator_tasks := fun _ _ => []
    collaborators_for_task := fun _ _ => []
    task_group_collaborators := fun _ => [] }

/-- A freshly constructed (never started) cutoff policy with the defaults. -/
def freshPolicy : PolicyState :=
  { round_start_time := none
    straggler_cutoff_time := .inf
    minimum_reporting := 1
    timerArmed := false
    hasCallback := false }

/-- A freshly constructed aggregator state with an empty roster. -/
def baseAgg : AggState :=
  { round_number := 0
    quit_job_sent_to := []
    authorized_cols := []
    end_of_round_check_done := [false]
    straggler_handling_policy_started_for_round := false
    stragglers := []
    available_collaborators := []
    collaborator_task_weight := []
    collaborator_tasks_results := []
    collaborators_done := []
    collaborator_start_time := []
    collaborator_end_time := []
    first_col_start := none
    previous_round_status := none
    tensor_db := []
    metric_queue := []
    best_model_score := none
    best_tensor_dict := []
    last_tensor_dict := []
    collaborators_to_add := []
    collaborators_to_remove := []
    dynamictaskargs := none
    dynamic_arg_cache := []
    assigner := emptyAssigner
    policy := freshPolicy }

/-- A minimal configuration for concrete evaluations. -/
def baseCfg : AggConfig :=
  { uuid := "agg"
    rounds_to_train := 1
    db_store_rounds := 1
    model_tensor_names := []
    compressFn := id
    decompressFn := id
    lossyDecompressFn := id
    aggWeighted := fun _ => 0
    aggTask := fun _ _ => 0
    perms := fun _ => [] }

/-- The aggregator state with `D` authorized (for the remove-then-add
direction of the cancellation scenario). -/
def c2AggAuth : AggState := { baseAgg with authorized_cols := ["D"] }

/-- C2: an admin queues `add_collaborator("L", "D")` and then calls
`remove_collaborator("L", "D")` before the round ends (and symmetrically
in the opposite order).  The spec expects clean cancellation: both queues
empty, `authorized_cols` unchanged, no error.  The code instead calls
`list.remove` with the bare cn on a queue of `(label, cn)` pairs, so the
inverse call raises `ValueError` and the originally queued pair stays in
its queue. -/
theorem C2_cancellation_raises_value_error :
    (addCollaborator baseAgg "L" "D").2 = none
    ∧ (addCollaborator baseAgg "L" "D").1.collaborators_to_add
        = [PyVal.pair "L" "D"]
    ∧ (removeCollaborator (addCollaborator baseAgg "L" "D").1 "L" "D").2
        = some PyErr.listRemoveMissing
    ∧ (removeCollaborator (addCollaborator baseAgg "L" "D").1 "L" "D").1.collaborators_to_add
        = [PyVal.pair "L" "D"]
    ∧ (removeCollaborator c2AggAuth "L" "D").2 = none
    ∧ (addCollaborator (removeCollaborator c2AggAuth "L" "D").1 "L" "D").2
        = some PyErr.listRemoveMissing
    ∧ (addCollaborator (removeCollaborator c2AggAuth "L" "D").1 "L" "D").1.collaborators_to_remove
        = [PyVal.pair "L" "D"] := by
  refine ⟨?_, ?_, ?_, ?_, ?_, ?_, ?_⟩ <;> decide

/-- The admin-to-endpoints map of the C5 scenario. -/
def c5mapping : List (String × List String) :=
  [("admin1", ["AddCollaborator", "GetExperimentStatus"])]

/-- C5: for an admin whose certificate common name matches the sender, who
is a key of `admins_endpoints_mapping`, and whose allowed set contains the
called endpoint, the two-argument `valid_admin_endpoint` would answer true
— but `validate_admin` invokes it with the `admin_common_name` argument
missing, so every authenticated admin RPC dies with `TypeError` instead of
being forwarded (and an endpoint outside the allowed set dies the same way
instead of with `Unauthorized`). -/
theorem C5_validate_admin_raises_type_error :
    validAdminCnAndId c5mapping "admin1" "admin1" = true
    ∧ valid_admin_endpoint c5mapping "AddCollaborator" "admin1" = .ok true
    ∧ validateAdmin true c5mapping "admin1" "admin1" "AddCollaborator"
        = .pyRaise .typeErr
    ∧ valid_admin_endpoint c5mapping "BogusEndpoint" "admin1" = .ok false
    ∧ validateAdmin true c5mapping "admin1" "admin1" "BogusEndpoint"
        = .pyRaise .typeErr
    ∧ (∀ (tls : Bool) (mapping : List (String × List String)) (cert sender ep : String),
        validateAdmin tls mapping cert sender ep ≠ .ok
        ∧ validateAdmin tls mapping cert sender ep ≠ .unauthorized) := by
  refine ⟨by decide, by rfl, by decide, by rfl, by decide, ?_⟩
  intro tls mapping cert sender ep
  unfold validateAdmin
  split <;> simp

/-- C6: `straggler_cutoff_check(done, total)` is true exactly when the
cutoff timer has fired — a round start time is recorded and strictly more
than the (finite) cutoff has elapsed since it — and at least
`minimum_reporting` collaborators are done; in particular it is false
whenever no round start time has been recorded. -/
theorem C6_straggler_cutoff_check_iff :
    ∀ (now : ℚ) (s : PolicyState) (done total : ℕ),
      (straggler_cutoff_check now s done total = true ↔
        ((∃ start, s.round_start_time = some start ∧
            ∃ t, s.straggler_cutoff_time = Cutoff.fin t ∧ t < now - start)
          ∧ s.minimum_reporting ≤ (done : ℤ)))
      ∧ (s.round_start_time = none →
          straggler_cutoff_check now s done total = false) := by
  intro now s done total
  have hexp : stragglerTimeExpired now s = true ↔
      (∃ start, s.round_start_time = some start ∧
        ∃ t, s.straggler_cutoff_time = Cutoff.fin t ∧ t < now - start) := by
    unfold stragglerTimeExpired
    rcases hrs : s.round_start_time with _ | start
    · simp [hrs]
    · rcases hct : s.straggler_cutoff_time with t | _
      · simp [hrs, hct, gt_iff_lt]
      · simp [hrs, hct]
  have hchk : straggler_cutoff_check now s done total
      = (stragglerTimeExpired now s && decide (s.minimum_reporting ≤ (done : ℤ))) := by
    unfold straggler_cutoff_check
    cases hb : stragglerTimeExpired now s
    · simp
    · by_cases hm : s.minimum_reporting ≤ (done : ℤ) <;> simp [ge_iff_le, hm]
  constructor
  · rw [hchk]
    simp only [Bool.and_eq_true, decide_eq_true_eq]
    rw [hexp]
  · intro hrs
    rw [hchk]
    have : stragglerTimeExpired now s = false := by
      unfold stragglerTimeExpired
      simp [hrs]
    simp [this]

/-- Every branch of `set_straggler_cutoff_time` has already stored the
clamped cutoff when it returns or raises. -/
theorem setStragglerCutoffTime_cutoff (now : ℚ) (s : PolicyState) (v : Cutoff) :
    (setStragglerCutoffTime now s v).1.straggler_cutoff_time = setCutoffVal v := by
  unfold setStragglerCutoffTime
  dsimp only
  split
  · split <;> rfl
  · split
    · rfl
    · split <;> rfl

/-- C9: the effective cutoff after construction or after
`set_straggler_cutoff_time(v)` is `max(v, 20)` for finite `v`, while a
requested `np.inf` stays `np.inf`, for which `start_policy` does nothing
(the policy is disabled). -/
theorem C9_cutoff_clamped_to_minimum :
    ∀ (v : ℚ) (start : Option ℚ) (mr : ℤ) (s p : PolicyState) (now : ℚ),
      (0 < mr →
        (CutoffPolicy.init start (Cutoff.fin v) mr).map
            (fun st => st.straggler_cutoff_time) = .ok (Cutoff.fin (max v 20))
        ∧ (CutoffPolicy.init start Cutoff.inf mr).map
            (fun st => st.straggler_cutoff_time) = .ok Cutoff.inf)
      ∧ (setStragglerCutoffTime now s (Cutoff.fin v)).1.straggler_cutoff_time
          = Cutoff.fin (max v 20)
      ∧ (setStragglerCutoffTime now s Cutoff.inf).1.straggler_cutoff_time
          = Cutoff.inf
      ∧ (p.straggler_cutoff_time = Cutoff.inf → startPolicy now p = p) := by
  intro v start mr s p now
  have hfin : setCutoffVal (Cutoff.fin v) = Cutoff.fin (max v 20) := by
    simp [setCutoffVal, cutoffMax, MINIMUM_CUTOFF_SECONDS]
  have hinf : setCutoffVal Cutoff.inf = Cutoff.inf := rfl
  refine ⟨fun h => ?_, ?_, ?_, fun h => ?_⟩
  · constructor <;>
      simp [CutoffPolicy.init, if_neg (not_le.mpr h), hfin, hinf, Except.map]
  · rw [setStragglerCutoffTime_cutoff, hfin]
  · rw [setStragglerCutoffTime_cutoff, hinf]
  · unfold startPolicy
    simp [h]

/-- A state in which every authorized collaborator has received the quit
signal plus one extra name (reachable via `stop(failed_collaborator)` with
a collaborator that is no longer authorized). -/
def c7Agg : AggState :=
  { baseAgg with quit_job_sent_to := ["A", "B"], authorized_cols := ["A"] }

/-- C7 counterexample: `quit_job_sent_to` is a strict superset of
`authorized_cols`, so by the claim the coordinator would be stopped, yet
`all_quit_jobs_sent` — which tests set *equality* — answers false. -/
theorem C7_cex_superset_is_not_stopped :
    (∀ x ∈ c7Agg.authorized_cols, x ∈ c7Agg.quit_job_sent_to)
    ∧ allQuitJobsSent c7Agg = false := by
  constructor
  · decide
  · decide

/-- C7 as amended: once `round_number ≥ rounds_to_train`, `get_tasks` marks
the caller as having received the quit signal and replies
`(tasks=None, round_number, sleep=0, quit=true)`; and the coordinator
counts as stopped exactly when the *set* of collaborators in
`quit_job_sent_to` equals the set `authorized_cols` (not merely contains
it). -/
theorem C7_quit_reply_and_stop_condition :
    ∀ (cfg : AggConfig) (s : AggState) (now : ℚ) (c : String),
      (cfg.rounds_to_train ≤ s.round_number →
        (getTasks cfg s now c).2 = ⟨none, s.round_number, 0, true⟩
        ∧ c ∈ (getTasks cfg s now c).1.quit_job_sent_to)
      ∧ (allQuitJobsSent s = true ↔
          s.quit_job_sent_to.toFinset = s.authorized_cols.toFinset) := by
  intro cfg s now c
  constructor
  · intro h
    have hq : timeToQuit cfg
        (if c ∈ s.available_collaborators then s
         else { s with available_collaborators :=
                  s.available_collaborators ++ [c] }) = true := by
      by_cases hc : c ∈ s.available_collaborators <;>
        simp [hc, timeToQuit, ge_iff_le, h]
    unfold getTasks
    by_cases hc : c ∈ s.available_collaborators <;> simp [hc] at hq ⊢ <;>
      simp [hq]
  · unfold allQuitJobsSent
    simp

/-!
## C1: the partition behaviour of `assign_tasks`
-/

/-- The two-group, three-collaborator configuration of the C1
counterexample: percentages sum to 1.0 exactly (0.5 is an exact binary
float, so the Python product `0.5 * 3 = 1.5` and `int(1.5) = 1` are
float-exact and the rational model coincides with the source here). -/
def c1Assigner : AssignerState :=
  { task_groups := [⟨"g1", 1/2, ["train"]⟩, ⟨"g2", 1/2, ["validate"]⟩]
    authorized_cols := ["a", "b", "c"]
    rounds := 1
    collaborators_to_assign := ["a", "b", "c"]
    all_tasks_in_groups := ["train", "validate"]
    collaborator_tasks := fun _ _ => []
    collaborators_for_task := fun _ _ => []
    task_group_collaborators := fun _ => [] }

/-- C1 counterexample: with percentages summing to exactly 1.0 and a
non-empty assignee list, the round assignment does *not* absorb the
remainder into the final group — each group, the last included, takes
`int(percentage * n)` collaborators (here 1 + 1 of 3) and the trailing
assertion fails (`PartitionError`), so not every assignee is consumed. -/
theorem C1_cex_remainder_not_absorbed :
    ((c1Assigner.task_groups.map fun g => g.percentage).sum = 1)
    ∧ c1Assigner.collaborators_to_assign ≠ []
    ∧ ([0, 1, 2] : List ℕ).Perm (List.range c1Assigner.collaborators_to_assign.length)
    ∧ (assignTasksRound c1Assigner 0 [0, 1, 2]).2.1 = some PyErr.assertionErr := by
  have h12 : numColInGroup (1/2) 3 = 1 := by
    unfold numColInGroup pyInt
    norm_num
  refine ⟨by norm_num [c1Assigner], by decide, by decide, ?_⟩
  simp only [assignTasksRound, assignGroupsGo, assignGroup, c1Assigner]
  norm_num [h12]

/-- The group loop of `assign_tasks` never touches
`collaborators_to_assign`, its final `col_idx` is the starting index plus
the sum of the groups' `int(percentage * n)` counts, and the per-group
selections are consecutive slices of the permutation. -/
theorem assignGroupsGo_spec (round_num : ℕ) (ridx : List ℕ) :
    ∀ (gs : List TaskGroup) (s : AssignerState) (colIdx : ℕ),
      (assignGroupsGo round_num ridx gs s colIdx).1.collaborators_to_assign
          = s.collaborators_to_assign
      ∧ (assignGroupsGo round_num ridx gs s colIdx).2.1
          = colIdx + (gs.map fun g =>
              numColInGroup g.percentage s.collaborators_to_assign.length).sum
      ∧ (assignGroupsGo round_num ridx gs s colIdx).2.2.flatten
          = ((ridx.drop colIdx).take ((gs.map fun g =>
              numColInGroup g.percentage s.collaborators_to_assign.length).sum)).map
              (fun i => s.collaborators_to_assign.getD i "") := by
  intro gs
  induction gs with
  | nil => intro s colIdx; simp [assignGroupsGo]
  | cons g gs ih =>
    intro s colIdx
    have hg : (assignGroup s round_num ridx colIdx g).1.collaborators_to_assign
        = s.collaborators_to_assign := rfl
    have hidx : (assignGroup s round_num ridx colIdx g).2.1
        = colIdx + numColInGroup g.percentage s.collaborators_to_assign.length := rfl
    have hsel : (assignGroup s round_num ridx colIdx g).2.2
        = ((ridx.drop colIdx).take
            (numColInGroup g.percentage s.collaborators_to_assign.length)).map
            (fun i => s.collaborators_to_assign.getD i "") := rfl
    obtain ⟨ih1, ih2, ih3⟩ :=
      ih (assignGroup s round_num ridx colIdx g).1 (assignGroup s round_num ridx colIdx g).2.1
    rw [hg] at ih1 ih2 ih3
    refine ⟨?_, ?_, ?_⟩
    · simpa [assignGroupsGo] using ih1
    · simp only [assignGroupsGo]
      rw [ih2, hidx, List.map_cons, List.sum_cons]
      ring
    · simp only [assignGroupsGo, List.flatten_cons]
      rw [ih3, hsel, hidx, List.map_cons, List.sum_cons, List.take_add, List.map_append]
      congr 2
      rw [List.drop_drop]

/-- C1 as amended: for a task-group configuration whose percentages sum to
1.0 and a non-empty assignee list, each group in declared order — the final
group included, which absorbs no remainder — takes
`int(percentage × n)` collaborators from the random permutation; the round
assignment succeeds exactly when those counts sum to `n`, in which case the
concatenated selections are the full permutation, and otherwise it fails
with `PartitionError`. -/
theorem C1_floor_partition_or_error (s : AssignerState) (r : ℕ) (ridx : List ℕ)
    (hperm : ridx.Perm (List.range s.collaborators_to_assign.length))
    (hsum : (s.task_groups.map fun g => g.percentage).sum = 1)
    (hne : s.collaborators_to_assign ≠ []) :
    ((assignTasksRound s r ridx).2.1 = none ↔
        (s.task_groups.map fun g =>
          numColInGroup g.percentage s.collaborators_to_assign.length).sum
          = s.collaborators_to_assign.length)
    ∧ ((assignTasksRound s r ridx).2.1 ≠ none →
        (assignTasksRound s r ridx).2.1 = some PyErr.assertionErr)
    ∧ ((assignTasksRound s r ridx).2.1 = none →
        (assignTasksRound s r ridx).2.2.flatten
          = ridx.map fun i => s.collaborators_to_assign.getD i "") := by
  obtain ⟨h1, h2, h3⟩ := assignGroupsGo_spec r ridx s.task_groups s 0
  have hlen : ridx.length = s.collaborators_to_assign.length := by
    simpa using hperm.length_eq
  unfold assignTasksRound
  dsimp only
  rw [h2]
  simp only [Nat.zero_add]
  by_cases hc : (s.task_groups.map fun g =>
      numColInGroup g.percentage s.collaborators_to_assign.length).sum
      = s.collaborators_to_assign.length
  · refine ⟨by simp [hc], by simp [hc], fun _ => ?_⟩
    rw [if_pos hc]
    dsimp only
    rw [h3, hc, List.drop_zero, ← hlen, List.take_length]
  · refine ⟨by simp [hc], by simp [hc], fun habs => ?_⟩
    rw [if_neg hc] at habs
    simp at habs

/-- A one-group configuration on which the amended C1 assignment succeeds. -/
def c1wAssigner : AssignerState :=
  { task_groups := [⟨"g", 1, ["train", "validate"]⟩]
    authorized_cols := ["a", "b"]
    rounds := 1
    collaborators_to_assign := ["a", "b"]
    all_tasks_in_groups := ["train", "validate"]
    collaborator_tasks := fun _ _ => []
    collaborators_for_task := fun _ _ => []
    task_group_collaborators := fun _ => [] }

/-- Witness for the amended C1 theorem at a concrete succeeding input. -/
theorem C1_floor_partition_witness :
    (assignTasksRound c1wAssigner 0 [1, 0]).2.1 = none
    ∧ (assignTasksRound c1wAssigner 0 [1, 0]).2.2.flatten = ["b", "a"] := by
  have hone : numColInGroup 1 2 = 2 := by
    unfold numColInGroup pyInt
    norm_num
    decide
  have h := C1_floor_partition_or_error c1wAssigner 0 [1, 0] (by decide)
    (by norm_num [c1wAssigner]) (by decide)
  have hsum : (c1wAssigner.task_groups.map fun g =>
      numColInGroup g.percentage c1wAssigner.collaborators_to_assign.length).sum
      = c1wAssigner.collaborators_to_assign.length := by
    simp [c1wAssigner, hone]
  refine ⟨h.1.mpr hsum, ?_⟩
  rw [h.2.2 (h.1.mpr hsum)]
  decide

/-!
## C8: frame properties of re-planning
-/

/-- A fold of `update2`-writes that all target round `rn` leaves every
other round's entry unchanged. -/
theorem foldl_update2_fixed_round {β : Type} (rn : ℕ) (key : β → String)
    (val : (String → ℕ → List String) → β → List String) :
    ∀ (l : List β) (f : String → ℕ → List String) (x : String) (r : ℕ), r ≠ rn →
      (l.foldl (fun f2 b => update2 f2 (key b) rn (val f2 b)) f) x r = f x r := by
  intro l
  induction l with
  | nil => intros; rfl
  | cons b bs ih =>
    intro f x r hr
    simp only [List.foldl_cons]
    rw [ih _ x r hr]
    unfold update2
    simp [hr]

/-- A fold of `update2`-writes over a list of rounds leaves every round not
in the list unchanged. -/
theorem foldl_update2_notin_rounds (c : String) (v : List String) :
    ∀ (l : List ℕ) (f : String → ℕ → List String) (x : String) (r : ℕ), r ∉ l →
      (l.foldl (fun f2 i => update2 f2 c i v) f) x r = f x r := by
  intro l
  induction l with
  | nil => intros; rfl
  | cons i is ih =>
    intro f x r hr
    simp only [List.foldl_cons]
    rw [ih _ x r (fun h => hr (List.mem_cons_of_mem _ h))]
    unfold update2
    simp only [List.mem_cons, not_or] at hr
    simp [hr.1]

/-- One group step only writes assignment entries of its own round and
leaves every other field of the state unchanged. -/
theorem assignGroup_frame (s : AssignerState) (rn : ℕ) (ridx : List ℕ)
    (ci : ℕ) (g : TaskGroup) (x : String) (r : ℕ) (hr : r ≠ rn) :
    (assignGroup s rn ridx ci g).1.collaborator_tasks x r = s.collaborator_tasks x r
    ∧ (assignGroup s rn ridx ci g).1.collaborators_for_task x r
        = s.collaborators_for_task x r := by
  constructor
  · exact foldl_update2_fixed_round rn (fun c => c) (fun _ _ => g.tasks) _
      s.collaborator_tasks x r hr
  · exact foldl_update2_fixed_round rn (fun t => t)
      (fun f2 t => f2 t rn ++ ((ridx.drop ci).take
        (numColInGroup g.percentage s.collaborators_to_assign.length)).map
        (fun i => s.collaborators_to_assign.getD i "")) _
      s.collaborators_for_task x r hr

/-- The group loop only writes assignment entries of its own round, and
preserves every other field of the state. -/
theorem assignGroupsGo_frame (rn : ℕ) (ridx : List ℕ) :
    ∀ (gs : List TaskGroup) (s : AssignerState) (ci : ℕ),
      (∀ (x : String) (r : ℕ), r ≠ rn →
        (assignGroupsGo rn ridx gs s ci).1.collaborator_tasks x r
            = s.collaborator_tasks x r
        ∧ (assignGroupsGo rn ridx gs s ci).1.collaborators_for_task x r
            = s.collaborators_for_task x r)
      ∧ (assignGroupsGo rn ridx gs s ci).1.task_groups = s.task_groups
      ∧ (assignGroupsGo rn ridx gs s ci).1.authorized_cols = s.authorized_cols
      ∧ (assignGroupsGo rn ridx gs s ci).1.rounds = s.rounds
      ∧ (assignGroupsGo rn ridx gs s ci).1.all_tasks_in_groups
          = s.all_tasks_in_groups := by
  intro gs
  induction gs with
  | nil => intro s ci; exact ⟨fun x r _ => ⟨rfl, rfl⟩, rfl, rfl, rfl, rfl⟩
  | cons g gs ih =>
    intro s ci
    obtain ⟨ihf, iht, iha, ihr, ihall⟩ :=
      ih (assignGroup s rn ridx ci g).1 (assignGroup s rn ridx ci g).2.1
    refine ⟨fun x r hr => ?_, ?_, ?_, ?_, ?_⟩
    · obtain ⟨hf1, hf2⟩ := ihf x r hr
      obtain ⟨hg1, hg2⟩ := assignGroup_frame s rn ridx ci g x r hr
      constructor
      · simpa [assignGroupsGo, hf1] using hg1
      · simpa [assignGroupsGo, hf2] using hg2
    · simpa [assignGroupsGo] using iht
    · simpa [assignGroupsGo] using iha
    · simpa [assignGroupsGo] using ihr
    · simpa [assignGroupsGo] using ihall

/-- The final assertion does not change which state `assignTasksRound`
returns. -/
theorem assignTasksRound_state (s : AssignerState) (rn : ℕ) (ridx : List ℕ) :
    (assignTasksRound s rn ridx).1 = (assignGroupsGo rn ridx s.task_groups s 0).1 := by
  unfold assignTasksRound
  dsimp only
  split <;> rfl

/-- `clearDroppedCols` writes only rounds at or after `from_round` (and
only the `collaborator_tasks` map). -/
theorem clearDroppedCols_frame (s : AssignerState) (fr : ℕ) (x : String)
    (r : ℕ) (hr : r < fr) :
    (clearDroppedCols s fr).collaborator_tasks x r = s.collaborator_tasks x r := by
  unfold clearDroppedCols
  dsimp only
  have key : ∀ (cols : List String) (f : String → ℕ → List String),
      (cols.foldl (fun f col =>
        if col ∈ s.collaborators_to_assign then f
        else (pyRange fr s.rounds).foldl (fun f2 i => update2 f2 col i []) f) f) x r
        = f x r := by
    intro cols
    induction cols with
    | nil => intro f; rfl
    | cons c cs ih =>
      intro f
      simp only [List.foldl_cons]
      rw [ih]
      split
      · rfl
      · refine foldl_update2_notin_rounds c [] _ f x r ?_
        unfold pyRange
        rw [List.mem_range'_1]
        omega
  exact key s.authorized_cols s.collaborator_tasks

/-- `resetTasksFT` writes only rounds at or after `from_round` (and only
the `collaborators_for_task` map). -/
theorem resetTasksFT_frame (s : AssignerState) (fr : ℕ) (x : String)
    (r : ℕ) (hr : r < fr) :
    (resetTasksFT s fr).collaborators_for_task x r = s.collaborators_for_task x r := by
  unfold resetTasksFT
  dsimp only
  have key : ∀ (ts : List String) (f : String → ℕ → List String),
      (ts.foldl (fun f task =>
        (pyRange fr s.rounds).foldl (fun f2 i => update2 f2 task i []) f) f) x r
        = f x r := by
    intro ts
    induction ts with
    | nil => intro f; rfl
    | cons t ts ih =>
      intro f
      simp only [List.foldl_cons]
      rw [ih]
      refine foldl_update2_notin_rounds t [] _ f x r ?_
      unfold pyRange
      rw [List.mem_range'_1]
      omega
  exact key s.all_tasks_in_groups s.collaborators_for_task

/-- The round loop of `assign_tasks` writes only assignment entries of the
rounds in its list, and never touches `collaborators_to_assign`. -/
theorem assignRoundsGo_frame (perms : ℕ → List ℕ) :
    ∀ (rs : List ℕ) (s : AssignerState),
      (∀ (x : String) (r : ℕ), r ∉ rs →
        (assignRoundsGo perms rs s).1.collaborator_tasks x r
            = s.collaborator_tasks x r
        ∧ (assignRoundsGo perms rs s).1.collaborators_for_task x r
            = s.collaborators_for_task x r)
      ∧ (assignRoundsGo perms rs s).1.collaborators_to_assign
          = s.collaborators_to_assign := by
  intro rs
  induction rs with
  | nil => intro s; exact ⟨fun x r _ => ⟨rfl, rfl⟩, rfl⟩
  | cons i is ih =>
    intro s
    have hst := assignTasksRound_state s i (perms i)
    obtain ⟨hgf, _, _, _, _⟩ := assignGroupsGo_frame i (perms i) s.task_groups s 0
    have hcta := (assignGroupsGo_spec i (perms i) s.task_groups s 0).1
    unfold assignRoundsGo
    dsimp only
    split
    · rename_i e heq
      have h1 : (assignTasksRound s i (perms i)).1
          = (assignGroupsGo i (perms i) s.task_groups s 0).1 := hst
      refine ⟨fun x r hr => ?_, ?_⟩
      · have hri : r ≠ i := fun h => hr (h ▸ List.mem_cons_self i is)
        rw [h1]
        exact hgf x r hri
      · rw [h1, hcta]
    · rename_i heq
      obtain ⟨ihf, ihcta⟩ := ih (assignTasksRound s i (perms i)).1
      refine ⟨fun x r hr => ?_, ?_⟩
      · have hri : r ≠ i := fun h => hr (h ▸ List.mem_cons_self i is)
        have hris : r ∉ is := fun h => hr (List.mem_cons_of_mem _ h)
        obtain ⟨if1, if2⟩ := ihf x r hris
        rw [if1, if2, hst]
        exact hgf x r hri
      · rw [ihcta, hst, hcta]

/-- `assign_tasks(from_round)` leaves the assignments of every round
before `from_round` unchanged. -/
theorem assign_tasks_frame (perms : ℕ → List ℕ) (s : AssignerState) (fr : ℕ)
    (x : String) (r : ℕ) (hr : r < fr) :
    (assign_tasks perms s fr).1.collaborator_tasks x r = s.collaborator_tasks x r
    ∧ (assign_tasks perms s fr).1.collaborators_for_task x r
        = s.collaborators_for_task x r := by
  unfold assign_tasks
  have hnotin : r ∉ pyRange fr s.rounds := by
    unfold pyRange
    rw [List.mem_range'_1]
    omega
  obtain ⟨hf, _⟩ := assignRoundsGo_frame perms (pyRange fr s.rounds)
    (resetTasksFT (clearDroppedCols s fr) fr)
  obtain ⟨h1, h2⟩ := hf x r hnotin
  constructor
  · rw [h1]
    have hcc : (resetTasksFT (clearDroppedCols s fr) fr).collaborator_tasks
        = (clearDroppedCols s fr).collaborator_tasks := rfl
    rw [hcc]
    exact clearDroppedCols_frame s fr x r hr
  · rw [h2]
    rw [resetTasksFT_frame (clearDroppedCols s fr) fr x r hr]
    rfl

/-- `assign_tasks` never changes `collaborators_to_assign`. -/
theorem assign_tasks_cta (perms : ℕ → List ℕ) (s : AssignerState) (fr : ℕ) :
    (assign_tasks perms s fr).1.collaborators_to_assign
        = s.collaborators_to_assign := by
  unfold assign_tasks
  rw [(assignRoundsGo_frame perms (pyRange fr s.rounds)
    (resetTasksFT (clearDroppedCols s fr) fr)).2]
  rfl

/-- C8: `end_of_round(available, stragglers, next_round)` makes the next
round's assignee set `available − stragglers`; when (as a set of
duplicate-free rosters) it equals the current `collaborators_to_assign`
the assigner state is left entirely unchanged with no re-planning, and
otherwise `collaborators_to_assign` is replaced and only assignments of
rounds `≥ next_round` are recomputed — every earlier round's task lists
and reverse index entries are untouched. -/
theorem C8_end_of_round_frame :
    ∀ (perms : ℕ → List ℕ) (s : AssignerState)
      (available stragglers : List String) (next_round : ℕ),
      ((available.filter fun c => decide (c ∉ stragglers)).Nodup →
        s.collaborators_to_assign.Nodup →
        (∀ x, x ∈ available.filter (fun c => decide (c ∉ stragglers)) ↔
            x ∈ s.collaborators_to_assign) →
        assignerEndOfRound perms s available stragglers next_round = (s, none))
      ∧ (¬ (((available.filter fun c => decide (c ∉ stragglers)) : Multiset String)
            = (s.collaborators_to_assign : Multiset String)) →
          (assignerEndOfRound perms s available stragglers
            next_round).1.collaborators_to_assign
            = available.filter fun c => decide (c ∉ stragglers))
      ∧ (∀ (c : String) (r : ℕ), r < next_round →
          (assignerEndOfRound perms s available stragglers
            next_round).1.collaborator_tasks c r
            = s.collaborator_tasks c r)
      ∧ (∀ (t : String) (r : ℕ), r < next_round →
          (assignerEndOfRound perms s available stragglers
            next_round).1.collaborators_for_task t r
            = s.collaborators_for_task t r) := by
  intro perms s available stragglers next_round
  set cta := available.filter fun c => decide (c ∉ stragglers) with hcta
  refine ⟨fun hn1 hn2 hmem => ?_, fun hne => ?_, fun c r hr => ?_, fun t r hr => ?_⟩
  · have hperm : cta.Perm s.collaborators_to_assign := by
      apply List.perm_of_nodup_nodup_toFinset_eq hn1 hn2
      ext x
      simp only [List.mem_toFinset]
      exact hmem x
    have heq : (cta : Multiset String) = (s.collaborators_to_assign : Multiset String) :=
      Multiset.coe_eq_coe.mpr hperm
    unfold assignerEndOfRound
    rw [← hcta, if_pos heq]
  · unfold assignerEndOfRound
    rw [← hcta, if_neg hne]
    rw [assign_tasks_cta]
  · unfold assignerEndOfRound
    rw [← hcta]
    dsimp only
    split
    · rfl
    · exact (assign_tasks_frame perms _ next_round c r hr).1
  · unfold assignerEndOfRound
    rw [← hcta]
    dsimp only
    split
    · rfl
    · exact (assign_tasks_frame perms _ next_round t r hr).2

/-!
## Preservation lemmas for the aggregator pipeline
-/

/-- The metric/aggregation pipeline touches only the tensor db, the metric
queue, the best score and the model dicts: the round counter, the
end-of-round flags, the assigner, `collaborators_done` and the recorded
task weights are preserved. -/
def MetricsOnly (s t : AggState) : Prop :=
  t.round_number = s.round_number
  ∧ t.end_of_round_check_done = s.end_of_round_check_done
  ∧ t.assigner = s.assigner
  ∧ t.collaborators_done = s.collaborators_done
  ∧ t.collaborator_task_weight = s.collaborator_task_weight

theorem metricsOnly_refl (s : AggState) : MetricsOnly s s :=
  ⟨rfl, rfl, rfl, rfl, rfl⟩

theorem metricsOnly_trans {a b c : AggState}
    (h1 : MetricsOnly a b) (h2 : MetricsOnly b c) : MetricsOnly a c :=
  ⟨h2.1.trans h1.1, h2.2.1.trans h1.2.1, h2.2.2.1.trans h1.2.2.1,
   h2.2.2.2.1.trans h1.2.2.2.1, h2.2.2.2.2.trans h1.2.2.2.2⟩

theorem processNamedTensor_metricsOnly (cfg : AggConfig) (s : AggState)
    (c : String) (nt : NamedTensor) :
    MetricsOnly s (processNamedTensor cfg s c nt).1 := by
  unfold processNamedTensor
  dsimp only
  repeat' split
  all_goals exact ⟨rfl, rfl, rfl, rfl, rfl⟩

theorem processAllTensors_metricsOnly (cfg : AggConfig) (c : String)
    (r : ℕ) (task : String) :
    ∀ (nts : List NamedTensor) (s : AggState),
      MetricsOnly s (processAllTensors cfg c r task s nts).1 := by
  intro nts
  induction nts with
  | nil => intro s; exact metricsOnly_refl s
  | cons nt rest ih =>
    intro s
    unfold processAllTensors
    dsimp only
    split
    · rename_i s1 e heq
      have h := processNamedTensor_metricsOnly cfg s c nt
      rw [heq] at h
      exact h
    · rename_i s1 tk v heq
      have h1 := processNamedTensor_metricsOnly cfg s c nt
      rw [heq] at h1
      split
      · rename_i s3 e heq2
        have h2 := ih (if "metric" ∈ tk.tags then
          { s1 with metric_queue := s1.metric_queue ++ [⟨r, c, task, tk.tensor_name, v⟩] }
          else s1)
        rw [heq2] at h2
        refine metricsOnly_trans (metricsOnly_trans h1 ?_) h2
        split <;> exact ⟨rfl, rfl, rfl, rfl, rfl⟩
      · rename_i s3 tks heq2
        have h2 := ih (if "metric" ∈ tk.tags then
          { s1 with metric_queue := s1.metric_queue ++ [⟨r, c, task, tk.tensor_name, v⟩] }
          else s1)
        rw [heq2] at h2
        refine metricsOnly_trans (metricsOnly_trans h1 ?_) h2
        split <;> exact ⟨rfl, rfl, rfl, rfl, rfl⟩

theorem saveModel_metricsOnly (cfg : AggConfig) (s : AggState) (r : ℕ)
    (isBest : Bool) : MetricsOnly s (saveModel cfg s r isBest) := by
  unfold saveModel
  dsimp only
  repeat' split
  all_goals exact ⟨rfl, rfl, rfl, rfl, rfl⟩

theorem prepareTrained_metricsOnly (cfg : AggConfig) (s : AggState)
    (tn o : String) (r : ℕ) (rep : Bool) (a : ℚ) :
    MetricsOnly s (prepareTrained cfg s tn o r rep a) :=
  ⟨rfl, rfl, rfl, rfl, rfl⟩

theorem computeTensorKeysLoop_metricsOnly (cfg : AggConfig) (c0 task : String)
    (wdict : List (String × ℚ)) :
    ∀ (tkeys : List TensorKey) (s : AggState),
      MetricsOnly s (computeTensorKeysLoop cfg c0 task wdict s tkeys).1 := by
  intro tkeys
  induction tkeys with
  | nil => intro s; exact metricsOnly_refl s
  | cons tk rest ih =>
    intro s
    unfold computeTensorKeysLoop
    dsimp only
    repeat' split
    all_goals
      repeat'
        first
        | exact ⟨rfl, rfl, rfl, rfl, rfl⟩
        | refine metricsOnly_trans ?_ (ih _)
        | refine metricsOnly_trans ?_ (saveModel_metricsOnly cfg _ _ _)

theorem computeValidation_metricsOnly (cfg : AggConfig) (s : AggState)
    (task : String) :
    MetricsOnly s (computeValidationRelatedTaskMetrics cfg s task).1 := by
  unfold computeValidationRelatedTaskMetrics
  try dsimp only
  repeat' split
  all_goals
    first
    | exact metricsOnly_refl s
    | exact computeTensorKeysLoop_metricsOnly cfg _ _ _ _ s

theorem computeAllTaskMetrics_metricsOnly (cfg : AggConfig) :
    ∀ (tasks : List String) (s : AggState),
      MetricsOnly s (computeAllTaskMetrics cfg s tasks).1 := by
  intro tasks
  induction tasks with
  | nil => intro s; exact metricsOnly_refl s
  | cons t rest ih =>
    intro s
    unfold computeAllTaskMetrics
    try dsimp only
    split
    · rename_i s1 e heq
      have h := computeValidation_metricsOnly cfg s t
      rw [heq] at h
      exact h
    · rename_i s1 heq
      have h := computeValidation_metricsOnly cfg s t
      rw [heq] at h
      exact metricsOnly_trans h (ih s1)

/-!
## C10: per-task aggregation needs a finished collaborator with weight
-/

/-- The assigned collaborators of a task that finished the current round
(in assignment order), as `_compute_validation_related_task_metrics`
computes them. -/
def donePart (s : AggState) (task : String) : List String :=
  (s.assigner.collaborators_for_task task s.round_number).filter
    (fun c => decide (c ∈ s.collaborators_done))

/-- Their total recorded data-size weight for the task. -/
def taskWeightTotal (s : AggState) (task : String) : ℕ :=
  ((donePart s task).map (fun c =>
    (lookupA s.collaborator_task_weight ⟨task, c, s.round_number⟩).getD 0)).sum

theorem donePart_metricsOnly {a b : AggState} (h : MetricsOnly a b) (t : String) :
    donePart b t = donePart a t ∧ taskWeightTotal b t = taskWeightTotal a t := by
  obtain ⟨h1, _, h3, h4, h5⟩ := h
  have hd : donePart b t = donePart a t := by
    unfold donePart
    rw [h1, h3, h4]
  refine ⟨hd, ?_⟩
  unfold taskWeightTotal
  rw [hd, h1, h5]

/-- When no assigned collaborator of the task finished the round, the
per-task aggregation raises `IndexError` at `collaborators_for_task[0]`
instead of skipping the task. -/
theorem computeValidation_empty (cfg : AggConfig) (s : AggState) (task : String)
    (h : donePart s task = []) :
    computeValidationRelatedTaskMetrics cfg s task = (s, some PyErr.indexErr) := by
  unfold donePart at h
  unfold computeValidationRelatedTaskMetrics
  dsimp only
  rw [h]
  simp

/-- When the per-task aggregation does not raise, some assigned
collaborator finished the round and the finishers' total recorded weight
is positive. -/
theorem computeValidation_success (cfg : AggConfig) (s : AggState) (task : String)
    (h : (computeValidationRelatedTaskMetrics cfg s task).2 = none) :
    donePart s task ≠ [] ∧ 0 < taskWeightTotal s task := by
  by_cases hd : donePart s task = []
  · rw [computeValidation_empty cfg s task hd] at h
    simp at h
  refine ⟨hd, ?_⟩
  unfold computeValidationRelatedTaskMetrics at h
  dsimp only at h
  unfold donePart at hd
  rw [taskWeightTotal, Nat.pos_iff_ne_zero]
  intro htot
  have htot' : (((((s.assigner.collaborators_for_task task s.round_number).filter
      (fun c => decide (c ∈ s.collaborators_done))).map
      (fun c => (c, lookupA s.collaborator_task_weight ⟨task, c, s.round_number⟩))).map
      (fun p => (p.1, p.2.getD 0))).map (fun p => p.2)).sum = 0 := by
    unfold donePart at htot
    simpa [List.map_map, Function.comp] using htot
  split at h
  · simp at h
  · split at h
    · simp at h
    · rename_i hno hzero
      apply hzero
      constructor
      · simp only [ne_eq, List.map_eq_nil_iff]
        exact hd
      · exact htot'

/-- If the whole end-of-round metrics loop succeeds, every task of the
round had a finished assigned collaborator with positive total weight. -/
theorem computeAllTaskMetrics_success (cfg : AggConfig) :
    ∀ (tasks : List String) (s : AggState),
      (computeAllTaskMetrics cfg s tasks).2 = none →
      ∀ t ∈ tasks, donePart s t ≠ [] ∧ 0 < taskWeightTotal s t := by
  intro tasks
  induction tasks with
  | nil => intro s _ t ht; exact absurd ht (List.not_mem_nil t)
  | cons t0 rest ih =>
    intro s hok t ht
    unfold computeAllTaskMetrics at hok
    try dsimp only at hok
    split at hok
    · simp at hok
    · rename_i s1 heq
      rcases List.mem_cons.mp ht with h | h
      · subst h
        exact computeValidation_success cfg s t (by rw [heq])
      · have hmo : MetricsOnly s s1 := by
          have hm := computeValidation_metricsOnly cfg s t0
          rw [heq] at hm
          exact hm
        have := ih s1 hok t h
        obtain ⟨hd, hw⟩ := donePart_metricsOnly hmo t
        rw [hd, hw] at this
        exact this

/-- C10: per-task metric aggregation at end of round requires, for every
task of the ending round, at least one collaborator in
`collaborators_done` among the task's assigned collaborators and a
positive total recorded data-size weight; a task whose assigned
collaborators are all stragglers makes `_compute_validation_related_task_metrics`
raise (`IndexError`) rather than being skipped. -/
theorem C10_metrics_need_done_collaborator :
    ∀ (cfg : AggConfig) (s : AggState) (task : String),
      (donePart s task = [] →
        computeValidationRelatedTaskMetrics cfg s task = (s, some PyErr.indexErr))
      ∧ ((computeValidationRelatedTaskMetrics cfg s task).2 = none →
          donePart s task ≠ [] ∧ 0 < taskWeightTotal s task)
      ∧ (s.end_of_round_check_done.get? s.round_number = some false →
          (endOfRoundCheck cfg s).2 = none →
          ∀ t ∈ s.assigner.all_tasks_in_groups,
            donePart s t ≠ [] ∧ 0 < taskWeightTotal s t) := by
  intro cfg s task
  refine ⟨computeValidation_empty cfg s task, computeValidation_success cfg s task,
    fun hflag hok => ?_⟩
  apply computeAllTaskMetrics_success cfg s.assigner.all_tasks_in_groups s
  unfold endOfRoundCheck at hok
  rw [hflag] at hok
  dsimp only at hok
  split at hok
  · simp at hok
  · rename_i s1 heq
    rw [heq]

/-!
## C3: duplicate submissions are rejected and change nothing
-/

/-- C3: when a result is already recorded under `TaskResultKey(t, c, r)`,
another `send_local_task_results` with the same triple leaves the whole
aggregator state — the recorded task weight, result keys and cached
tensors included — unchanged, and on the live path (not quitting, caller
not a straggler, current round) it fails with the duplicate-result
`ValueError`. -/
theorem C3_duplicate_result_rejected :
    ∀ (cfg : AggConfig) (s : AggState) (now : ℚ) (c : String) (r : ℕ)
      (t : String) (sz : ℕ) (nts : List NamedTensor),
      (lookupA s.collaborator_tasks_results ⟨t, c, r⟩).isSome = true →
        (sendLocalTaskResults cfg s now c r t sz nts).1 = s
        ∧ (timeToQuit cfg s = false → c ∉ s.stragglers → s.round_number = r →
            (sendLocalTaskResults cfg s now c r t sz nts).2
              = some PyErr.duplicateResult) := by
  intro cfg s now c r t sz nts hdup
  unfold sendLocalTaskResults
  dsimp only
  split
  · rename_i hguard
    refine ⟨rfl, fun hq hs _ => ?_⟩
    rw [hq] at hguard
    simp [hs] at hguard
  · split
    · rename_i hround
      exact ⟨rfl, fun _ _ hr => absurd hr hround⟩
    · rw [if_pos (show collaboratorTaskCompleted s c t r = true from hdup)]
      exact ⟨rfl, fun _ _ _ => rfl⟩

/-- An aggregator state that already holds a result for
`("train", "A", 0)`. -/
def c3Agg : AggState :=
  { baseAgg with collaborator_tasks_results := [(⟨"train", "A", 0⟩, [])] }

/-- Witness for C3 at a concrete duplicate submission. -/
theorem C3_duplicate_result_witness :
    (sendLocalTaskResults baseCfg c3Agg 0 "A" 0 "train" 5 []).1 = c3Agg
    ∧ (timeToQuit baseCfg c3Agg = false → "A" ∉ c3Agg.stragglers →
        c3Agg.round_number = 0 →
        (sendLocalTaskResults baseCfg c3Agg 0 "A" 0 "train" 5 []).2
          = some PyErr.duplicateResult) :=
  C3_duplicate_result_rejected baseCfg c3Agg 0 "A" 0 "train" 5 [] (by decide)

/-!
## C4: round monotonicity and exactly-once end-of-round work
-/

/-- `round_number` and the end-of-round done flags are unchanged. -/
def RoundFlagsEq (s t : AggState) : Prop :=
  t.round_number = s.round_number
  ∧ t.end_of_round_check_done = s.end_of_round_check_done

/-- Shape of the round counter and done flags across one transition:
either both are untouched, or the current round's end-of-round work
completed — the counter advanced by exactly one and exactly the current
round's flag was flipped from false to true. -/
def StepShape (s t : AggState) : Prop :=
  RoundFlagsEq s t
  ∨ (t.round_number = s.round_number + 1
    ∧ eorFlag s s.round_number = false
    ∧ s.round_number < s.end_of_round_check_done.length
    ∧ t.end_of_round_check_done = s.end_of_round_check_done.set s.round_number true)

theorem roundFlagsEq_of_metricsOnly {s t : AggState} (h : MetricsOnly s t) :
    RoundFlagsEq s t :=
  ⟨h.1, h.2.1⟩

theorem roundFlagsEq_trans {a b c : AggState}
    (h1 : RoundFlagsEq a b) (h2 : RoundFlagsEq b c) : RoundFlagsEq a c :=
  ⟨h2.1.trans h1.1, h2.2.trans h1.2⟩

theorem applyRemovals_roundFlags :
    ∀ (l : List (String × String)) (st : AggState),
      RoundFlagsEq st (applyRemovals l st).1 := by
  intro l
  induction l with
  | nil => intro st; exact ⟨rfl, rfl⟩
  | cons p rest ih =>
    intro st
    unfold applyRemovals
    split
    · exact ⟨rfl, rfl⟩
    · exact ih _

theorem writeDynamicTaskArgs_round (s : AggState) :
    (writeDynamicTaskArgs s).round_number = s.round_number := by
  unfold writeDynamicTaskArgs
  split <;> rfl

theorem writeDynamicTaskArgs_done (s : AggState) :
    (writeDynamicTaskArgs s).end_of_round_check_done
      = s.end_of_round_check_done := by
  unfold writeDynamicTaskArgs
  split <;> rfl

theorem addsFoldl_roundFlags :
    ∀ (l : List (String × String)) (st : AggState),
      RoundFlagsEq st (l.foldl
        (fun st p => { st with authorized_cols := st.authorized_cols ++ [p.2]
                               assigner := assignerAddCollab st.assigner p.2 })
        st) := by
  intro l
  induction l with
  | nil => intro st; exact ⟨rfl, rfl⟩
  | cons p rest ih =>
    intro st
    simp only [List.foldl_cons]
    exact ih _

theorem applyRemovalsAndClear_roundFlags (rems : List (String × String))
    (st : AggState) : RoundFlagsEq st (applyRemovalsAndClear rems st).1 := by
  unfold applyRemovalsAndClear
  have h := applyRemovals_roundFlags rems st
  split
  · rename_i s14 e heq
    rw [heq] at h
    exact h
  · rename_i s14 heq
    rw [heq] at h
    exact h

theorem endOfRoundTail_roundFlags (cfg : AggConfig) (s4 : AggState) :
    RoundFlagsEq s4 (endOfRoundTail cfg s4).1 := by
  unfold endOfRoundTail
  split
  · exact ⟨rfl, rfl⟩
  · exact ⟨rfl, rfl⟩
  · rename_i adds rems _ _
    dsimp only
    split
    · exact ⟨rfl, rfl⟩
    · constructor
      · rw [(applyRemovalsAndClear_roundFlags rems _).1]
        dsimp only
        rw [(addsFoldl_roundFlags adds _).1, writeDynamicTaskArgs_round,
          (saveModel_metricsOnly cfg _ _ false).1]
      · rw [(applyRemovalsAndClear_roundFlags rems _).2]
        dsimp only
        rw [(addsFoldl_roundFlags adds _).2, writeDynamicTaskArgs_done,
          (saveModel_metricsOnly cfg _ _ false).2.1]

/-- One `_end_of_round_check` call either leaves the round counter and
all done flags unchanged, or advances the counter by one while flipping
the current round's flag from false to true. -/
theorem endOfRoundCheck_shape (cfg : AggConfig) (s : AggState) :
    StepShape s (endOfRoundCheck cfg s).1 := by
  unfold endOfRoundCheck
  split
  · exact Or.inl ⟨rfl, rfl⟩
  · exact Or.inl ⟨rfl, rfl⟩
  · rename_i hflag
    split
    · rename_i s1 e heq
      have hm := computeAllTaskMetrics_metricsOnly cfg s.assigner.all_tasks_in_groups s
      rw [heq] at hm
      exact Or.inl (roundFlagsEq_of_metricsOnly hm)
    · rename_i s1 heq
      have hm := computeAllTaskMetrics_metricsOnly cfg s.assigner.all_tasks_in_groups s
      rw [heq] at hm
      have hlen : s.round_number < s.end_of_round_check_done.length := by
        by_contra hle
        rw [List.get?_eq_none.mpr (Nat.le_of_not_lt hle)] at hflag
        exact Option.noConfusion hflag
      have hfl : eorFlag s s.round_number = false := by
        unfold eorFlag
        rw [List.getD_eq_getElem?_getD, ← List.get?_eq_getElem?, hflag]
        rfl
      dsimp only
      refine Or.inr ?_
      have htail := endOfRoundTail_roundFlags cfg
        { s1 with previous_round_status := some (getRoundStatus s1)
                  collaborator_start_time := []
                  collaborator_end_time := []
                  first_col_start := none
                  end_of_round_check_done :=
                    s1.end_of_round_check_done.set s1.round_number true
                  round_number := s1.round_number + 1 }
      obtain ⟨hm1, hm2, _, _, _⟩ := hm
      refine ⟨?_, hfl, hlen, ?_⟩
      · rw [htail.1]
        dsimp only
        rw [hm1]
      · rw [htail.2]
        dsimp only
        rw [hm1, hm2]

theorem stepShape_of_pre {s t u : AggState} (h1 : RoundFlagsEq s t)
    (h2 : StepShape t u) : StepShape s u := by
  obtain ⟨hr, hd⟩ := h1
  rcases h2 with h2 | ⟨ha, hb, hc, hd2⟩
  · exact Or.inl (roundFlagsEq_trans ⟨hr, hd⟩ h2)
  · right
    unfold eorFlag at hb ⊢
    rw [hr] at ha hb hc hd2
    rw [hd] at hb hc hd2
    exact ⟨ha, hb, hc, hd2⟩

theorem isCollaboratorDone_roundFlags (s : AggState) (c : String) :
    RoundFlagsEq s (isCollaboratorDone s c) := by
  unfold isCollaboratorDone
  dsimp only
  split <;> exact ⟨rfl, rfl⟩

theorem endRoundDueToStragglers_shape (cfg : AggConfig) (s : AggState) :
    StepShape s (endRoundDueToStragglers cfg s).1 :=
  stepShape_of_pre ⟨rfl, rfl⟩ (endOfRoundCheck_shape cfg _)

theorem stragglerCutoffTimeElapsed_shape (cfg : AggConfig) (s : AggState)
    (now : ℚ) : StepShape s (stragglerCutoffTimeElapsed cfg s now).1 := by
  unfold stragglerCutoffTimeElapsed
  split
  · exact endRoundDueToStragglers_shape cfg s
  · exact Or.inl ⟨rfl, rfl⟩

theorem sendLocalTaskResults_shape (cfg : AggConfig) (s : AggState) (now : ℚ)
    (c : String) (r : ℕ) (t : String) (sz : ℕ) (nts : List NamedTensor) :
    StepShape s (sendLocalTaskResults cfg s now c r t sz nts).1 := by
  unfold sendLocalTaskResults
  dsimp only
  split
  · exact Or.inl ⟨rfl, rfl⟩
  · split
    · exact Or.inl ⟨rfl, rfl⟩
    · split
      · exact Or.inl ⟨rfl, rfl⟩
      · generalize hS1 : ({ s with collaborator_task_weight := insertA s.collaborator_task_weight ⟨t, c, r⟩ sz } : AggState) = s1
        have h01 : RoundFlagsEq s s1 := by
          rw [← hS1]
          exact ⟨rfl, rfl⟩
        have hm := processAllTensors_metricsOnly cfg c r t nts s1
        split
        · rename_i s2 e heq
          rw [heq] at hm
          exact Or.inl (roundFlagsEq_trans h01 (roundFlagsEq_of_metricsOnly hm))
        · rename_i s2 tres heq
          rw [heq] at hm
          have h02 : RoundFlagsEq s s2 :=
            roundFlagsEq_trans h01 (roundFlagsEq_of_metricsOnly hm)
          try dsimp only
          split
          · exact Or.inl (roundFlagsEq_trans h02 ⟨rfl, rfl⟩)
          · rename_i t0 heq0
            try dsimp only
            split
            · refine stepShape_of_pre ?_ (endOfRoundCheck_shape cfg _)
              exact roundFlagsEq_trans h02
                (roundFlagsEq_trans (⟨rfl, rfl⟩ : RoundFlagsEq s2 _)
                  (isCollaboratorDone_roundFlags _ _))
            · split
              · refine stepShape_of_pre ?_ (endRoundDueToStragglers_shape cfg _)
                exact roundFlagsEq_trans h02
                  (roundFlagsEq_trans (⟨rfl, rfl⟩ : RoundFlagsEq s2 _)
                    (isCollaboratorDone_roundFlags _ _))
              · refine Or.inl (roundFlagsEq_trans h02
                  (roundFlagsEq_trans (⟨rfl, rfl⟩ : RoundFlagsEq s2 _)
                    (isCollaboratorDone_roundFlags _ _)))

set_option maxHeartbeats 1000000 in
theorem getTasks_roundFlags (cfg : AggConfig) (s : AggState) (now : ℚ)
    (c : String) : RoundFlagsEq s (getTasks cfg s now c).1 := by
  unfold getTasks
  dsimp only
  by_cases hc : c ∈ s.available_collaborators
  · rw [if_pos hc]
    repeat' split
    all_goals exact ⟨rfl, rfl⟩
  · rw [if_neg hc]
    repeat' split
    all_goals exact ⟨rfl, rfl⟩

theorem addCollaborator_roundFlags (s : AggState) (l cn : String) :
    RoundFlagsEq s (addCollaborator s l cn).1 := by
  unfold addCollaborator
  repeat' split
  all_goals exact ⟨rfl, rfl⟩

theorem removeCollaborator_roundFlags (s : AggState) (l cn : String) :
    RoundFlagsEq s (removeCollaborator s l cn).1 := by
  unfold removeCollaborator
  repeat' split
  all_goals exact ⟨rfl, rfl⟩

theorem aggSetStragglerCutoffTime_shape (cfg : AggConfig) (s : AggState)
    (now : ℚ) (v : Cutoff) :
    StepShape s (aggSetStragglerCutoffTime cfg s now v).1 := by
  unfold aggSetStragglerCutoffTime
  dsimp only
  split
  · exact Or.inl ⟨rfl, rfl⟩
  · split
    · exact stepShape_of_pre ⟨rfl, rfl⟩ (stragglerCutoffTimeElapsed_shape cfg _ now)
    · exact Or.inl ⟨rfl, rfl⟩

theorem aggregatorStop_roundFlags (s : AggState) (f : Option String) :
    RoundFlagsEq s (aggregatorStop s f) := by
  unfold aggregatorStop
  dsimp only
  split <;> exact ⟨rfl, rfl⟩

/-- Every RPC step either leaves the round counter and all done flags
unchanged, or advances the counter by one while flipping exactly the
current round's flag from false to true. -/
theorem step_shape (cfg : AggConfig) (s : AggState) (e : Rpc) :
    StepShape s (step cfg s e) := by
  cases e with
  | getTasksRpc now c => exact Or.inl (getTasks_roundFlags cfg s now c)
  | sendLocalTaskResultsRpc now c r t sz nts =>
    exact sendLocalTaskResults_shape cfg s now c r t sz nts
  | timerFired now => exact stragglerCutoffTimeElapsed_shape cfg s now
  | addCollaboratorRpc l cn => exact Or.inl (addCollaborator_roundFlags s l cn)
  | removeCollaboratorRpc l cn => exact Or.inl (removeCollaborator_roundFlags s l cn)
  | setStragglerCutoffTimeRpc now v => exact aggSetStragglerCutoffTime_shape cfg s now v
  | getExperimentStatusRpc => exact Or.inl ⟨rfl, rfl⟩
  | getAggregatedTensorRpc => exact Or.inl ⟨rfl, rfl⟩
  | stopRpc f => exact Or.inl (aggregatorStop_roundFlags s f)

theorem stepShape_round_le {s t : AggState} (h : StepShape s t) :
    s.round_number ≤ t.round_number := by
  rcases h with ⟨hr, _⟩ | ⟨hr, _, _, _⟩ <;> omega

theorem stepShape_flag_mono {s t : AggState} (h : StepShape s t) (r : ℕ)
    (hf : eorFlag s r = true) : eorFlag t r = true := by
  rcases h with ⟨_, hd⟩ | ⟨_, hb, hc, hd⟩
  · unfold eorFlag at hf ⊢
    rw [hd]
    exact hf
  · by_cases hrr : r = s.round_number
    · rw [hrr] at hf
      rw [hf] at hb
      exact Bool.noConfusion hb
    · unfold eorFlag at hf ⊢
      rw [hd, List.getD_eq_getElem?_getD,
        List.getElem?_set_ne (fun h => hrr h.symm), ← List.getD_eq_getElem?_getD]
      exact hf

theorem run_round_mono (cfg : AggConfig) :
    ∀ (evs : List Rpc) (s : AggState),
      s.round_number ≤ (run cfg s evs).round_number := by
  intro evs
  induction evs with
  | nil => intro s; exact Nat.le_refl _
  | cons e es ih =>
    intro s
    exact Nat.le_trans (stepShape_round_le (step_shape cfg s e)) (ih (step cfg s e))

theorem run_flag_mono (cfg : AggConfig) (r : ℕ) :
    ∀ (evs : List Rpc) (s : AggState),
      eorFlag s r = true → eorFlag (run cfg s evs) r = true := by
  intro evs
  induction evs with
  | nil => intro s hf; exact hf
  | cons e es ih =>
    intro s hf
    exact ih (step cfg s e) (stepShape_flag_mono (step_shape cfg s e) r hf)

theorem eorCount_zero_of_flag (cfg : AggConfig) (r : ℕ) :
    ∀ (evs : List Rpc) (s : AggState),
      eorFlag s r = true → eorCount cfg r s evs = 0 := by
  intro evs
  induction evs with
  | nil => intro s _; rfl
  | cons e es ih =>
    intro s hf
    unfold eorCount
    rw [if_neg (fun h => by rw [hf] at h; exact Bool.noConfusion h.1)]
    rw [ih (step cfg s e) (stepShape_flag_mono (step_shape cfg s e) r hf)]

theorem eorCount_le_one (cfg : AggConfig) (r : ℕ) :
    ∀ (evs : List Rpc) (s : AggState), eorCount cfg r s evs ≤ 1 := by
  intro evs
  induction evs with
  | nil => intro s; exact Nat.zero_le 1
  | cons e es ih =>
    intro s
    unfold eorCount
    by_cases hflip : eorFlag s r = false ∧ eorFlag (step cfg s e) r = true
    · rw [if_pos hflip, eorCount_zero_of_flag cfg r es (step cfg s e) hflip.2]
    · rw [if_neg hflip]
      simpa using ih (step cfg s e)

/-- C4: along every sequence of RPC invocations the round counter never
decreases; each single step either leaves it unchanged or — exactly when
the end-of-round work completes — increases it by one while flipping that
round's done flag from false to true; the work for any given round
completes at most once per trace; and a repeated `_end_of_round_check`
for an already-completed round returns the state unchanged with no error. -/
theorem C4_round_monotone_eor_once :
    ∀ (cfg : AggConfig) (s : AggState) (evs : List Rpc) (e : Rpc) (r : ℕ),
      s.round_number ≤ (run cfg s evs).round_number
      ∧ ((step cfg s e).round_number = s.round_number
          ∨ ((step cfg s e).round_number = s.round_number + 1
             ∧ eorFlag s s.round_number = false
             ∧ eorFlag (step cfg s e) s.round_number = true))
      ∧ eorCount cfg r s evs ≤ 1
      ∧ (eorFlag s s.round_number = true → endOfRoundCheck cfg s = (s, none)) := by
  intro cfg s evs e r
  refine ⟨run_round_mono cfg evs s, ?_, eorCount_le_one cfg r evs s, fun hf => ?_⟩
  · rcases step_shape cfg s e with ⟨hr, _⟩ | ⟨ha, hb, hc, hd⟩
    · exact Or.inl hr
    · refine Or.inr ⟨ha, hb, ?_⟩
      unfold eorFlag
      rw [hd, List.getD_eq_getElem?_getD, List.getElem?_set_self hc]
      rfl
  · have hget : s.end_of_round_check_done.get? s.round_number = some true := by
      unfold eorFlag at hf
      rw [List.getD_eq_getElem?_getD, ← List.get?_eq_getElem?] at hf
      cases hg : s.end_of_round_check_done.get? s.round_number with
      | none => rw [hg] at hf; exact Bool.noConfusion hf
      | some b =>
        rw [hg] at hf
        cases b
        · exact Bool.noConfusion hf
        · rfl
    unfold endOfRoundCheck
    rw [hget]
